import Mathlib

/-!
Verification development for the browser-profile migration engine
(`src/main/services/import.ts`, `src/main/services/chromeCrypto.ts`,
`src/main/services/db.ts`, `src/main/services/bookmarks.ts`).

The TypeScript source is shallowly embedded: file reads, SQLite row
iteration and the AES-GCM primitive are abstracted as explicit data /
function parameters, while all control flow, parsing, normalization and
merge logic is translated directly.  SQLite tables written by the engine
are modelled as Lean lists of rows; `INSERT OR REPLACE` is modelled as an
in-place update of the conflicting row (faithful to row contents and
counts; only the rowid ordering of the real store differs).
-/

/-- JavaScript `Array.prototype.slice` / `Buffer.slice` index clamping:
negative indices count from the end, and indices are clamped to `[0, len]`. -/
def jsIdx (len : Nat) (i : Int) : Nat :=
  if i < 0 then (max ((len : Int) + i) 0).toNat else (min i (len : Int)).toNat

/-- JavaScript two-argument `slice(a, b)` on a byte buffer. -/
def jsSlice2 {α : Type} (l : List α) (a b : Int) : List α :=
  (l.take (jsIdx l.length b)).drop (jsIdx l.length a)

/-- JavaScript one-argument `slice(a)` on a byte buffer. -/
def jsSlice1 {α : Type} (l : List α) (a : Int) : List α :=
  jsSlice2 l a (l.length : Int)

/-- Bytes of `Buffer.from(s, 'utf8')`, i.e. the UTF-8 encoding of a string. -/
def strBytes (s : String) : List Nat :=
  (s.data.flatMap String.utf8EncodeChar).map (fun b => b.toNat)

/-- The 3-byte `v10` version tag (`'v'`, `'1'`, `'0'`). -/
def v10Bytes : List Nat := [118, 49, 48]

/-- The 5-byte `DPAPI` platform-protection marker (`Buffer.from('DPAPI')`). -/
def dpapiBytes : List Nat := [68, 80, 65, 80, 73]

/-- Embedding of `decryptChromeValue(encrypted, masterKey)` from
`chromeCrypto.ts`.  The Node `crypto` AES-256-GCM primitive is abstracted as
the parameter `gcm key iv ciphertext tag`, returning `none` when
`createDecipheriv`/`setAuthTag`/`final` would throw (wrong key size,
authentication failure, malformed input); the surrounding `try/catch`
turns any such failure into `null`, i.e. `none`. -/
def decryptChromeValue
    (gcm : List Nat → List Nat → List Nat → List Nat → Option (List Nat))
    (encrypted : List Nat) (masterKey : Option (List Nat)) : Option (List Nat) :=
  if encrypted.length = 0 then some []
  else if jsSlice2 encrypted 0 3 ≠ v10Bytes then
    -- not 'v10'-tagged: treated as already-plaintext and returned unchanged
    some encrypted
  else
    match masterKey with
    | none => none
    | some key =>
      if key.length = 0 then none
      else
        let iv := jsSlice2 encrypted 3 15
        let tag := jsSlice1 encrypted ((encrypted.length : Int) - 16)
        let ciphertext := jsSlice2 encrypted 15 ((encrypted.length : Int) - 16)
        gcm key iv ciphertext tag

/-- The `os_crypt.encrypted_key` field of a parsed `Local State` manifest:
either absent (or a falsy non-string), present but not a string, or a
string value. -/
inductive KeyField where
  | absent
  | nonString
  | strVal (s : String)
deriving DecidableEq, Repr

/-- Outcome of `readLocalState`: the read or the JSON parse throws, or it
yields a document whose `os_crypt.encrypted_key` field is as given. -/
inductive ManifestRead where
  | readError
  | parsed (field : KeyField)
deriving DecidableEq, Repr

/-- Embedding of `loadChromeMasterKey(localStatePath)` from
`chromeCrypto.ts`.  `decode` abstracts the total, lenient
`Buffer.from(b64, 'base64')` decoder. -/
def loadChromeMasterKey (decode : String → List Nat) (m : ManifestRead) :
    Option (List Nat) :=
  match m with
  | .readError => none
  | .parsed .absent => none
  | .parsed .nonString => none
  | .parsed (.strVal s) =>
    if s = "" then none  -- `!b64` is true for the empty string
    else
      let enc := decode s
      if jsSlice2 enc 0 5 = dpapiBytes then some (jsSlice1 enc 5) else some enc

/-- The fixed offset between the 1601-01-01 epoch and the Unix epoch,
in milliseconds (`11644473600000`). -/
def chromeEpochOffsetMs : Int := 11644473600000

/-- Embedding of `toUnixMsFromChromeUs(us)` from `import.ts`: `now` stands
for `Date.now()`.  `Int.fdiv` is `Math.floor` division. -/
def toUnixMsFromChromeUs (now us : Int) : Int :=
  if us ≤ 0 then now  -- `!us || us <= 0`
  else
    let ms := Int.fdiv us 1000 - chromeEpochOffsetMs
    if 0 < ms then ms else now

/-- Embedding of the inline Firefox timestamp conversion in
`importFirefoxHistory`: microseconds since the Unix epoch, floor-divided by
1000, with the same non-positive clamp to `Date.now()`. -/
def ffVisitMs (now : Int) (v : Option Int) : Int :=
  let ms := Int.fdiv (v.getD 0) 1000
  if 0 < ms then ms else now

/-! ### Canonical store rows (tables created in `db.ts`) -/

/-- One row of the canonical `history` table
(`url TEXT UNIQUE, title, visitAt, visitCount`). -/
structure HistoryRow where
  url : String
  title : String
  visitAt : Int
  visitCount : Int
deriving DecidableEq, Repr

/-- One row of the canonical `bookmarks` table (`title, url TEXT UNIQUE, createdAt`). -/
structure BookmarkRow where
  title : String
  url : String
  createdAt : Int
deriving DecidableEq, Repr

/-- One row of the canonical `cookies` table, `UNIQUE(host, name, path)`. -/
structure CookieRow where
  host : String
  name : String
  value : List Nat
  path : String
  createdAt : Int
  expiresAt : Option Int
  lastAccessedAt : Int
  secure : Nat
  httpOnly : Nat
  sameSite : Option String
  source : String
deriving DecidableEq, Repr

/-- One row of the canonical `logins` table, `UNIQUE(origin, username)` with a
nullable `username` column. -/
structure LoginRow where
  origin : String
  username : Option String
  password : Option (List Nat)
  realm : Option String
  formActionOrigin : Option String
  timesUsed : Int
  createdAt : Int
  updatedAt : Option Int
deriving DecidableEq, Repr

/-- The canonical store: the four tables this engine writes.  Rows are kept
in insertion order; the `UNIQUE` constraints are realised by the write
operations below. -/
structure Store where
  history : List HistoryRow
  bookmarks : List BookmarkRow
  cookies : List CookieRow
  logins : List LoginRow
deriving DecidableEq, Repr

def Store.empty : Store := ⟨[], [], [], []⟩

/-! ### Generic keyed upsert on a list-modelled table

All four write paths of the merge engine are instances of one shape:
look up the incoming row's unique key; if a row with that key exists,
rewrite it in place (`UPDATE` after `INSERT OR IGNORE`, or the
replacement half of `INSERT OR REPLACE`), otherwise append a fresh row.
`rowKey a = none` models an incoming row on which the SQL statement
throws (a `NOT NULL` violation, swallowed by the per-row `catch`): the
table is left unchanged. -/

section KeyedUpsert

variable {R A K : Type} [DecidableEq K]
variable (keyFn : R → K) (rowKey : A → Option K)
variable (mkNew : A → K → R) (upd : A → R → R)

/-- Look up the first table row carrying key `k` (`SELECT ... WHERE key = ?`). -/
def lookupK (l : List R) (k : K) : Option R :=
  l.find? (fun r => decide (keyFn r = k))

/-- Apply one incoming row to the table: rewrite the keyed row in place when
present, append otherwise, do nothing when the row's write throws. -/
def applyRow (l : List R) (a : A) : List R :=
  match rowKey a with
  | none => l
  | some k =>
    if (lookupK keyFn l k).isSome then
      l.map (fun r => if keyFn r = k then upd a r else r)
    else l ++ [mkNew a k]

/-- Fold a batch of incoming rows into the table (one transaction). -/
def tblFold (l : List R) (batch : List A) : List R :=
  batch.foldl (applyRow keyFn rowKey mkNew upd) l

/-- The effect of a batch on the single key `k`, as a fold on `Option R`. -/
def keyFoldF (k : K) (x : Option R) (batch : List A) : Option R :=
  batch.foldl (fun x a => some (match x with | none => mkNew a k | some r => upd a r)) x

end KeyedUpsert

section KeyedUpsertLemmas

variable {R A K : Type} [DecidableEq K]
variable {keyFn : R → K} {rowKey : A → Option K}
variable {mkNew : A → K → R} {upd : A → R → R}

theorem lookupK_map (f : R → R) (hf : ∀ r, keyFn (f r) = keyFn r)
    (l : List R) (k : K) :
    lookupK keyFn (l.map f) k = (lookupK keyFn l k).map f := by
  induction l with
  | nil => rfl
  | cons hd tl ih =>
    simp only [lookupK, List.map_cons, List.find?] at *
    rw [hf]
    by_cases h : keyFn hd = k
    · simp [h]
    · simp [h, ih]

theorem lookupK_append_single (l : List R) (e : R) (k : K) :
    lookupK keyFn (l ++ [e]) k =
      match lookupK keyFn l k with
      | some r => some r
      | none => if keyFn e = k then some e else none := by
  induction l with
  | nil => simp [lookupK, List.find?]; by_cases h : keyFn e = k <;> simp [h]
  | cons hd tl ih =>
    simp only [lookupK, List.cons_append, List.find?] at *
    by_cases h : keyFn hd = k
    · simp [h]
    · simp [h, ih]

theorem lookupK_key (l : List R) (k : K) {r : R} (h : lookupK keyFn l k = some r) :
    keyFn r = k := by
  have := List.find?_some h
  simpa using this

theorem lookupK_applyRow (hKnew : ∀ a k, rowKey a = some k → keyFn (mkNew a k) = k)
    (hKupd : ∀ a r k, rowKey a = some k → keyFn r = k → keyFn (upd a r) = keyFn r) (l : List R) (a : A) (k : K) :
    lookupK keyFn (applyRow keyFn rowKey mkNew upd l a) k =
      match rowKey a with
      | none => lookupK keyFn l k
      | some k' =>
        if k' = k then
          some (match lookupK keyFn l k with
                | none => mkNew a k
                | some r => upd a r)
        else lookupK keyFn l k := by
  unfold applyRow
  cases hr : rowKey a with
  | none => rfl
  | some k' =>
    simp only []
    by_cases hp : (lookupK keyFn l k').isSome
    · rw [if_pos hp]
      rw [lookupK_map (fun r => if keyFn r = k' then upd a r else r)
            (by
              intro r
              show keyFn (if keyFn r = k' then upd a r else r) = keyFn r
              by_cases h : keyFn r = k'
              · rw [if_pos h]; exact hKupd a r k' hr h
              · rw [if_neg h])]
      by_cases hkk : k' = k
      · subst hkk
        cases hx : lookupK keyFn l k' with
        | none => rw [hx] at hp; simp at hp
        | some r =>
          have := @lookupK_key R K _ keyFn l k' r hx
          simp [hx, this]
      · cases hx : lookupK keyFn l k with
        | none => simp [hkk]
        | some r =>
          have := @lookupK_key R K _ keyFn l k r hx
          have hne : keyFn r ≠ k' := by rw [this]; intro hc; exact hkk hc.symm
          simp [hkk, hne]
    · rw [if_neg hp]
      rw [lookupK_append_single]
      by_cases hkk : k' = k
      · subst hkk
        cases hx : lookupK keyFn l k' with
        | some r => rw [hx] at hp; simp at hp
        | none => simp [hKnew a k' hr]
      · cases hx : lookupK keyFn l k with
        | some r => simp [hkk]
        | none =>
          have : keyFn (mkNew a k') ≠ k := by rw [hKnew a k' hr]; exact hkk
          simp [hkk, this]

theorem lookupK_applyRow_isSome_mono (hKnew : ∀ a k, rowKey a = some k → keyFn (mkNew a k) = k)
    (hKupd : ∀ a r k, rowKey a = some k → keyFn r = k → keyFn (upd a r) = keyFn r) (l : List R) (a : A) (k : K)
    (h : (lookupK keyFn l k).isSome) :
    (lookupK keyFn (applyRow keyFn rowKey mkNew upd l a) k).isSome := by
  rw [lookupK_applyRow hKnew hKupd]
  cases hr : rowKey a with
  | none => exact h
  | some k' =>
    by_cases hkk : k' = k
    · simp [hkk]
    · simpa [hkk] using h

theorem lookupK_tblFold (hKnew : ∀ a k, rowKey a = some k → keyFn (mkNew a k) = k)
    (hKupd : ∀ a r k, rowKey a = some k → keyFn r = k → keyFn (upd a r) = keyFn r) (l : List R) (batch : List A) (k : K) :
    lookupK keyFn (tblFold keyFn rowKey mkNew upd l batch) k =
      keyFoldF mkNew upd k (lookupK keyFn l k)
        (batch.filter (fun a => decide (rowKey a = some k))) := by
  induction batch generalizing l with
  | nil => rfl
  | cons a batch ih =>
    simp only [tblFold, List.foldl_cons] at *
    rw [ih]
    rw [lookupK_applyRow hKnew hKupd]
    cases hr : rowKey a with
    | none => simp [hr, keyFoldF]
    | some k' =>
      by_cases hkk : k' = k
      · subst hkk
        simp only [hr, if_pos rfl, List.filter_cons, decide_eq_true_eq, if_pos rfl]
        simp [keyFoldF]
      · have : ¬(rowKey a = some k) := by rw [hr]; intro hc; exact hkk (Option.some.inj hc)
        simp only [hr, if_neg hkk, List.filter_cons]
        simp [hkk, this]

theorem keyFoldF_isSome_of_isSome (k : K) (x : Option R) (batch : List A)
    (h : x.isSome) : (keyFoldF mkNew upd k x batch).isSome := by
  induction batch generalizing x with
  | nil => exact h
  | cons a batch ih =>
    simp only [keyFoldF, List.foldl_cons] at *
    exact ih _ (by simp)

theorem keyFoldF_isSome_of_ne_nil (k : K) (x : Option R) (batch : List A)
    (h : batch ≠ []) : (keyFoldF mkNew upd k x batch).isSome := by
  cases batch with
  | nil => exact absurd rfl h
  | cons a batch =>
    simp only [keyFoldF, List.foldl_cons]
    exact keyFoldF_isSome_of_isSome k _ batch (by simp)

theorem lookupK_tblFold_isSome_of_mem (hKnew : ∀ a k, rowKey a = some k → keyFn (mkNew a k) = k)
    (hKupd : ∀ a r k, rowKey a = some k → keyFn r = k → keyFn (upd a r) = keyFn r) (l : List R) (batch : List A)
    {a : A} {k : K} (ha : a ∈ batch) (hk : rowKey a = some k) :
    (lookupK keyFn (tblFold keyFn rowKey mkNew upd l batch) k).isSome := by
  rw [lookupK_tblFold hKnew hKupd]
  apply keyFoldF_isSome_of_ne_nil
  intro hnil
  have : a ∈ batch.filter (fun a => decide (rowKey a = some k)) :=
    List.mem_filter.2 ⟨ha, by simp [hk]⟩
  rw [hnil] at this
  simp at this

theorem length_applyRow (l : List R) (a : A) :
    (applyRow keyFn rowKey mkNew upd l a).length =
      l.length + (match rowKey a with
                  | none => 0
                  | some k => if (lookupK keyFn l k).isSome then 0 else 1) := by
  unfold applyRow
  cases rowKey a with
  | none => simp
  | some k =>
    by_cases hp : (lookupK keyFn l k).isSome
    · simp [hp]
    · simp [hp]

theorem length_tblFold_stable (hKnew : ∀ a k, rowKey a = some k → keyFn (mkNew a k) = k)
    (hKupd : ∀ a r k, rowKey a = some k → keyFn r = k → keyFn (upd a r) = keyFn r) (l : List R) (batch : List A)
    (h : ∀ a ∈ batch, ∀ k, rowKey a = some k → (lookupK keyFn l k).isSome) :
    (tblFold keyFn rowKey mkNew upd l batch).length = l.length := by
  induction batch generalizing l with
  | nil => rfl
  | cons a batch ih =>
    simp only [tblFold, List.foldl_cons] at *
    rw [ih]
    · rw [length_applyRow]
      cases hr : rowKey a with
      | none => rfl
      | some k => simp [h a (by simp) k hr]
    · intro a' ha' k hk
      exact lookupK_applyRow_isSome_mono hKnew hKupd l a k (h a' (by simp [ha']) k hk)

theorem tblFold_idem_lookup (hKnew : ∀ a k, rowKey a = some k → keyFn (mkNew a k) = k)
    (hKupd : ∀ a r k, rowKey a = some k → keyFn r = k → keyFn (upd a r) = keyFn r)
    (keyIdem : ∀ (k : K) (f : List A) (x : Option R), (∀ a ∈ f, rowKey a = some k) →
        keyFoldF mkNew upd k (keyFoldF mkNew upd k x f) f = keyFoldF mkNew upd k x f)
    (l : List R) (batch : List A) (k : K) :
    lookupK keyFn (tblFold keyFn rowKey mkNew upd
        (tblFold keyFn rowKey mkNew upd l batch) batch) k =
      lookupK keyFn (tblFold keyFn rowKey mkNew upd l batch) k := by
  rw [lookupK_tblFold hKnew hKupd, lookupK_tblFold hKnew hKupd]
  apply keyIdem
  intro a ha
  have := List.mem_filter.1 ha
  simpa using this.2

theorem tblFold_idem_length (hKnew : ∀ a k, rowKey a = some k → keyFn (mkNew a k) = k)
    (hKupd : ∀ a r k, rowKey a = some k → keyFn r = k → keyFn (upd a r) = keyFn r) (l : List R) (batch : List A) :
    (tblFold keyFn rowKey mkNew upd
        (tblFold keyFn rowKey mkNew upd l batch) batch).length =
      (tblFold keyFn rowKey mkNew upd l batch).length := by
  apply length_tblFold_stable hKnew hKupd
  intro a ha k hk
  exact lookupK_tblFold_isSome_of_mem hKnew hKupd l batch ha hk

end KeyedUpsertLemmas

/-! ### Normalized incoming rows and per-table write operations -/

/-- JavaScript `x || d` on a nullable string: `null`/`undefined` and the
empty string are falsy. -/
def jsStrOr (o : Option String) (d : String) : String :=
  match o with
  | some s => if s = "" then d else s
  | none => d

/-- One incoming history row as bound into the shared
`INSERT OR IGNORE INTO history` / `UPDATE history ... visitCount =
MAX(visitCount, ?)` statement pair (identical in `importChromeLikeHistory`
and `importFirefoxHistory`).  `url = none` models a source row whose `url`
column is SQL `NULL`, on which the insert throws a `NOT NULL` violation
(swallowed by the per-row `catch`, so the table is untouched). -/
structure HRowIn where
  url : Option String
  title : String
  ts : Int
  cnt : Int
deriving DecidableEq, Repr

def histKey (r : HistoryRow) : String := r.url

def histRowKey (a : HRowIn) : Option String := a.url

/-- `INSERT OR IGNORE INTO history(url, title, visitAt, visitCount)`. -/
def histNew (a : HRowIn) (k : String) : HistoryRow := ⟨k, a.title, a.ts, a.cnt⟩

/-- `UPDATE history SET title = ?, visitAt = ?, visitCount = MAX(visitCount, ?)
WHERE url = ?`. -/
def histUpd (a : HRowIn) (r : HistoryRow) : HistoryRow :=
  ⟨r.url, a.title, a.ts, max r.visitCount a.cnt⟩

def histFold (h : List HistoryRow) (batch : List HRowIn) : List HistoryRow :=
  tblFold histKey histRowKey histNew histUpd h batch

/-- A row of the Chrome/Brave `urls` table as read by
`SELECT url, title, last_visit_time, visit_count FROM urls`. -/
structure ChromeUrlRow where
  url : Option String
  title : Option String
  last_visit_time : Int
  visit_count : Int
deriving DecidableEq, Repr

/-- Normalization applied to each Chrome history row before binding:
`r.title || r.url`, `toUnixMsFromChromeUs(Number(r.last_visit_time || 0))`,
and `Math.max(1, Number(r.visit_count || 1))` (which equals
`max 1 visit_count` for every integer, including `0`). -/
def chromeNorm (now : Int) (r : ChromeUrlRow) : HRowIn :=
  ⟨r.url, jsStrOr r.title (r.url.getD ""),
    toUnixMsFromChromeUs now r.last_visit_time, max 1 r.visit_count⟩

/-- The `ORDER BY last_visit_time DESC` ordering of the Chrome history query. -/
def chromeVisitDesc (a b : ChromeUrlRow) : Prop :=
  b.last_visit_time ≤ a.last_visit_time

instance : DecidableRel chromeVisitDesc := fun a b => Int.decLe _ _

instance : IsTotal ChromeUrlRow chromeVisitDesc :=
  ⟨fun a b => le_total b.last_visit_time a.last_visit_time⟩

instance : IsTrans ChromeUrlRow chromeVisitDesc :=
  ⟨fun _ _ _ h1 h2 => le_trans h2 h1⟩

/-- `typeof limit === 'number' && limit > 0 ? Math.min(limit, rows.length) :
rows.length`. -/
def importLimit (limit : Option Int) (n : Nat) : Nat :=
  match limit with
  | some l => if 0 < l then min l.toNat n else n
  | none => n

/-- Embedding of `importChromeLikeHistory(filePath, limit)`: the sorted row
set of the copied sqlite file is the `rows` parameter, the canonical
`history` table is `h`; returns the new table and the returned count
(`max`). -/
def importChromeLikeHistory (now : Int) (rows : List ChromeUrlRow)
    (limit : Option Int) (h : List HistoryRow) : List HistoryRow × Nat :=
  let sorted := List.insertionSort chromeVisitDesc rows
  let maxN := importLimit limit sorted.length
  (histFold h ((sorted.take maxN).map (chromeNorm now)), maxN)

/-- A row of the Firefox `moz_places` query (`WHERE url IS NOT NULL`, so
`url` is never SQL `NULL`). -/
structure FfPlaceRow where
  url : String
  title : Option String
  last_visit_date : Option Int
  visit_count : Option Int
deriving DecidableEq, Repr

/-- Normalization applied to each Firefox history row: title fallback,
microsecond-to-millisecond conversion with clamp, and
`Math.max(1, Number(r.visit_count || 1))`. -/
def ffNorm (now : Int) (r : FfPlaceRow) : HRowIn :=
  ⟨some r.url, jsStrOr r.title r.url, ffVisitMs now r.last_visit_date,
    max 1 (r.visit_count.getD 1)⟩

/-- The `ORDER BY last_visit_date DESC` ordering of the Firefox query
(SQL `NULL` dates modelled as `0`). -/
def ffVisitDesc (a b : FfPlaceRow) : Prop :=
  b.last_visit_date.getD 0 ≤ a.last_visit_date.getD 0

instance : DecidableRel ffVisitDesc := fun a b => Int.decLe _ _

instance : IsTotal FfPlaceRow ffVisitDesc :=
  ⟨fun a b => le_total (b.last_visit_date.getD 0) (a.last_visit_date.getD 0)⟩

instance : IsTrans FfPlaceRow ffVisitDesc :=
  ⟨fun _ _ _ h1 h2 => le_trans h2 h1⟩

/-- Embedding of `importFirefoxHistory(filePath, limit)`. -/
def importFirefoxHistory (now : Int) (rows : List FfPlaceRow)
    (limit : Option Int) (h : List HistoryRow) : List HistoryRow × Nat :=
  let sorted := List.insertionSort ffVisitDesc rows
  let maxN := importLimit limit sorted.length
  (histFold h ((sorted.take maxN).map (ffNorm now)), maxN)

/-! ### Bookmarks -/

/-- One `{title, url}` item pushed by the bookmark-tree walk. -/
structure BmItem where
  title : String
  url : String
deriving DecidableEq, Repr

/-- A node of the Chrome `Bookmarks` JSON tree: `isUrl` is
`node.type === 'url'`, `url` is `none` when `node.url` is not a string,
`children` is `node.children` (walked even for url nodes, as the source
does). -/
inductive BmNode where
  | mk (isUrl : Bool) (name : Option String) (url : Option String)
      (children : List BmNode)

/-- The recursive `walk` of `importChromeLikeBookmarks` (and
`countChromeBookmarks`): a url node with a string `url` pushes
`{title: String(node.name || node.url), url}`, then children are walked. -/
def walkNode : BmNode → List BmItem
  | .mk isUrl name url children =>
    (if isUrl then
      match url with
      | some u => [⟨jsStrOr name u, u⟩]
      | none => []
    else []) ++ walkNodes children
where walkNodes : List BmNode → List BmItem
  | [] => []
  | c :: cs => walkNode c ++ walkNodes cs

/-- The three walked subtrees of the file's `roots` object. -/
structure BmRoots where
  bookmark_bar : Option BmNode
  other : Option BmNode
  synced : Option BmNode

def walkOptNode : Option BmNode → List BmItem
  | some n => walkNode n
  | none => []

/-- Items collected from a parsed `Bookmarks` file, in walk order. -/
def walkRoots (r : BmRoots) : List BmItem :=
  walkOptNode r.bookmark_bar ++ walkOptNode r.other ++ walkOptNode r.synced

def bmKey (r : BookmarkRow) : String := r.url

def bmRowKey (a : BmItem) : Option String := some a.url

/-- `BookmarksService.add` (an `INSERT OR IGNORE` reached only when
`findByUrl` returned nothing): append with `createdAt = Date.now()`. -/
def bmNew (now : Int) (a : BmItem) (k : String) : BookmarkRow := ⟨a.title, k, now⟩

/-- A bookmark whose URL already exists is skipped unchanged. -/
def bmUpd (a : BmItem) (r : BookmarkRow) : BookmarkRow := r

/-- The per-item loop body of `importChromeLikeBookmarks` /
`importFirefoxBookmarks`: `findByUrl`, and on miss `add` plus
`imported += 1`. -/
def bmAddStep (now : Int) (acc : List BookmarkRow × Nat) (it : BmItem) :
    List BookmarkRow × Nat :=
  match lookupK bmKey acc.1 it.url with
  | some _ => acc
  | none => (acc.1 ++ [bmNew now it it.url], acc.2 + 1)

/-- Embedding of `importChromeLikeBookmarks(filePath)`: walk the parsed
JSON, then insert each item whose URL is not yet bookmarked.  Returns the
new `bookmarks` table and the count of rows actually inserted. -/
def importChromeLikeBookmarks (now : Int) (roots : BmRoots)
    (b : List BookmarkRow) : List BookmarkRow × Nat :=
  (walkRoots roots).foldl (bmAddStep now) (b, 0)

/-- A row of the Firefox bookmarks join (`COALESCE(b.title, p.title, p.url)
AS title, p.url AS url ... WHERE b.type = 1 AND p.url IS NOT NULL`). -/
structure FfBmRow where
  title : Option String
  url : String
deriving DecidableEq, Repr

/-- Embedding of `importFirefoxBookmarks(filePath)`. -/
def importFirefoxBookmarks (now : Int) (rows : List FfBmRow)
    (b : List BookmarkRow) : List BookmarkRow × Nat :=
  (rows.map (fun r => (⟨jsStrOr r.title r.url, r.url⟩ : BmItem))).foldl
    (bmAddStep now) (b, 0)

/-! ### Cookies and logins -/

/-- A row of the Chrome/Brave `cookies` table (`SELECT * FROM cookies`),
with the columns the import reads. -/
structure ChromeCookieRow where
  host_key : String
  name : String
  path : String
  encrypted_value : List Nat
  value : String
  creation_utc : Int
  expires_utc : Int
  last_access_utc : Int
  is_secure : Int
  is_httponly : Int
  samesite : Option Int
deriving DecidableEq, Repr

/-- The canonical cookie row built for one source row in
`importChromeLikeCookies`: decrypt `encrypted_value` (falling back to the
plaintext `value` column when decryption yields nothing), normalize the
three timestamps, and map flags.  `dec` is
`decryptChromeValue(·, masterKey)`. -/
def cookieRowOf (now : Int) (dec : List Nat → Option (List Nat))
    (source : String) (r : ChromeCookieRow) : CookieRow :=
  let enc := r.encrypted_value
  let valBuf : List Nat :=
    if 0 < enc.length then
      match dec enc with
      | some v => v
      | none => strBytes r.value  -- `if (!valBuf) valBuf = Buffer.from(String(r.value ?? ''))`
    else strBytes r.value
  let createdAt := toUnixMsFromChromeUs now r.creation_utc
  let expiresAt := toUnixMsFromChromeUs now r.expires_utc
  let lastAccessedAt := toUnixMsFromChromeUs now r.last_access_utc
  { host := r.host_key
    name := r.name
    value := valBuf
    path := if r.path = "" then "/" else r.path  -- `String(r.path || '/')`
    createdAt := createdAt
    expiresAt := if 0 < expiresAt then some expiresAt else none
    lastAccessedAt := lastAccessedAt
    secure := if r.is_secure ≠ 0 then 1 else 0
    httpOnly := if r.is_httponly ≠ 0 then 1 else 0
    sameSite := r.samesite.map (fun v => toString v)
    source := source }

def ckKey (r : CookieRow) : String × String × String := (r.host, r.name, r.path)

def ckRowKey (a : CookieRow) : Option (String × String × String) := some (ckKey a)

/-- `INSERT OR REPLACE INTO cookies(...)` when no `(host, name, path)` row
exists: plain insert. -/
def ckNew (a : CookieRow) (k : String × String × String) : CookieRow := a

/-- `INSERT OR REPLACE INTO cookies(...)` on a conflicting row: the incoming
row replaces the stored one. -/
def ckUpd (a : CookieRow) (r : CookieRow) : CookieRow := a

/-- Embedding of `importChromeLikeCookies(filePath, localStatePath, source)`:
returns the new `cookies` table and the returned count, which is
`rows.length` — the number of source rows read. -/
def importChromeLikeCookies (now : Int) (dec : List Nat → Option (List Nat))
    (source : String) (rows : List ChromeCookieRow) (c : List CookieRow) :
    List CookieRow × Nat :=
  (tblFold ckKey ckRowKey ckNew ckUpd c (rows.map (cookieRowOf now dec source)),
    rows.length)

/-- A row of the Chrome/Brave `logins` table (`SELECT * FROM logins`),
with the columns the import reads. -/
structure ChromeLoginRow where
  origin_url : String
  username_value : Option String
  password_value : List Nat
  signon_realm : Option String
  action_url : Option String
  form_action_origin : Option String
  times_used : Int
  date_created : Int
  date_password_modified : Int
  date_last_used : Int
deriving DecidableEq, Repr

/-- The canonical login row built for one source row in
`importChromeLikePasswords`. -/
def loginRowOf (now : Int) (dec : List Nat → Option (List Nat))
    (r : ChromeLoginRow) : LoginRow :=
  let enc := r.password_value
  let decPw : Option (List Nat) :=
    if 0 < enc.length then dec enc else some []  -- `Buffer.alloc(0)`
  let createdAt := toUnixMsFromChromeUs now r.date_created
  let updatedAt := toUnixMsFromChromeUs now
    (if r.date_password_modified ≠ 0 then r.date_password_modified
     else r.date_last_used)  -- `r.date_password_modified || r.date_last_used || 0`
  { origin := r.origin_url
    username := r.username_value
    password := decPw
    realm := r.signon_realm
    formActionOrigin :=
      match r.action_url with
      | some u => some u
      | none => r.form_action_origin
    timesUsed := r.times_used
    createdAt := createdAt
    updatedAt := if 0 < updatedAt then some updatedAt else none }

def lgKey (r : LoginRow) : String × Option String := (r.origin, r.username)

/-- A login row participates in the `UNIQUE(origin, username)` conflict only
when its `username` is non-`NULL`: SQLite treats `NULL` values in a unique
index as distinct from everything, so a `NULL`-username row can never
conflict. -/
def lgRowKey (a : LoginRow) : Option (String × Option String) :=
  match a.username with
  | some _ => some (a.origin, a.username)
  | none => none

def lgNew (a : LoginRow) (k : String × Option String) : LoginRow := a

def lgUpd (a : LoginRow) (r : LoginRow) : LoginRow := a

/-- One `INSERT OR REPLACE INTO logins(...)` statement: replace the
conflicting `(origin, username)` row when the username is non-`NULL`,
otherwise plain insert (no conflict possible). -/
def loginStep (l : List LoginRow) (a : LoginRow) : List LoginRow :=
  match a.username with
  | some _ => applyRow lgKey lgRowKey lgNew lgUpd l a
  | none => l ++ [a]

/-- Embedding of `importChromeLikePasswords(filePath, localStatePath,
source)`: returns the new `logins` table and the returned count
(`rows.length`). -/
def importChromeLikePasswords (now : Int) (dec : List Nat → Option (List Nat))
    (rows : List ChromeLoginRow) (lg : List LoginRow) : List LoginRow × Nat :=
  ((rows.map (loginRowOf now dec)).foldl loginStep lg, rows.length)

/-! ### Profile detection (`detectProfiles`) -/

inductive Browser where
  | chrome
  | brave
  | firefox
deriving DecidableEq, Repr

def browserTag : Browser → String
  | .chrome => "chrome"
  | .brave => "brave"
  | .firefox => "firefox"

def isChromeLike : Browser → Bool
  | .chrome => true
  | .brave => true
  | .firefox => false

structure ProfilePaths where
  root : String
  profileDir : Option String
  localState : Option String
  history : Option String
  bookmarks : Option String
  cookies : Option String
  logins : Option String
  firefoxPlaces : Option String
deriving DecidableEq, Repr

structure ImportProfile where
  id : String
  browser : Browser
  name : String
  paths : ProfilePaths
deriving DecidableEq, Repr

/-- `path.join` for the fixed relative names used by the locator. -/
def pjoin (a b : String) : String := a ++ "/" ++ b

/-- The `/^Profile \d+$/` filter on Chrome/Brave profile directory names. -/
def isChromeProfileDir (s : String) : Bool :=
  s.startsWith "Profile " &&
    (let rest := s.drop 8
     rest ≠ "" && rest.toList.all Char.isDigit)

/-- The `/^Profile\d+$/i` filter on `profiles.ini` section names. -/
def isIniProfileSection (s : String) : Bool :=
  (s.take 7).toLower = "profile" &&
    (let rest := s.drop 7
     rest ≠ "" && rest.toList.all Char.isDigit)

/-- `String.contains`-style substring test (the `/\.default/` fallback filter). -/
def containsSub (needle hay : String) : Bool :=
  hay.toList.tails.any (fun t => needle.toList.isPrefixOf t)

/-- `path.basename`. -/
def basename (s : String) : String :=
  let t := s.dropRightWhile (fun c => c = '/')
  (t.splitOn "/").getLastD ""

/-- Split on `/\r?\n/` as `content.split` does. -/
def splitJsLines (content : String) : List String :=
  (content.splitOn "\n").map (fun l =>
    if l.endsWith "\r" then l.dropRight 1 else l)

def iniSetKey (sec : List (String × String)) (k v : String) :
    List (String × String) :=
  if sec.any (fun p => p.1 = k) then
    sec.map (fun p => if p.1 = k then (k, v) else p)
  else sec ++ [(k, v)]

def iniEnsureSection (res : List (String × List (String × String)))
    (s : String) : List (String × List (String × String)) :=
  if res.any (fun p => p.1 = s) then res else res ++ [(s, [])]

def iniSetInSection (res : List (String × List (String × String)))
    (s k v : String) : List (String × List (String × String)) :=
  res.map (fun p => if p.1 = s then (p.1, iniSetKey p.2 k v) else p)

/-- One line of the small INI parser in `import.ts`. -/
def parseIniLine (st : List (String × List (String × String)) × Option String)
    (raw : String) : List (String × List (String × String)) × Option String :=
  let line := raw.trim
  if line = "" || line.startsWith ";" || line.startsWith "#" then st
  else if line.startsWith "[" && line.endsWith "]" then
    let sec := ((line.drop 1).dropRight 1).trim
    (iniEnsureSection st.1 sec, some sec)
  else
    match line.toList.findIdx? (fun c => c = '=') with
    | some eq =>
      if 0 < eq then
        match st.2 with
        | some sec =>
          ((iniSetInSection st.1 sec ((line.take eq).trim)
              ((line.drop (eq + 1)).trim)), st.2)
        | none => st
      else st
    | none => st

/-- Embedding of `parseIni(content)`: section → key → value, in insertion
order, later assignments overwriting earlier ones. -/
def parseIni (content : String) : List (String × List (String × String)) :=
  ((splitJsLines content).foldl parseIniLine ([], none)).1

def iniGet (sec : List (String × String)) (k : String) : Option String :=
  (sec.find? (fun p => decide (p.1 = k))).map (fun p => p.2)

/-- Filesystem state the locator consults, abstracted: existence of the
three install roots, directory listings (`listDirs`, which returns `[]`
when the read throws), and the `profiles.ini` content (`none` models a
throwing `readFileSync`). -/
structure FsModel where
  platform : String
  home : String
  chromeRootExists : Bool
  chromeDirs : List String
  braveRootExists : Bool
  braveDirs : List String
  ffRootExists : Bool
  ffIniExists : Bool
  ffIniContent : Option String
  ffDirs : List String
deriving DecidableEq, Repr

/-- The Chrome/Brave half of `detectProfiles`: `Default` plus every
`Profile N` sibling. -/
def chromeLikeProfiles (tag : String) (browser : Browser) (label : String)
    (root : String) (dirs : List String) : List ImportProfile :=
  ("Default" :: dirs.filter isChromeProfileDir).map (fun p =>
    let profileDir := pjoin root p
    { id := tag ++ ":" ++ p
      browser := browser
      name := label ++ " — " ++ p
      paths :=
        { root := root
          profileDir := some p
          localState := some (pjoin root "Local State")
          history := some (pjoin profileDir "History")
          bookmarks := some (pjoin profileDir "Bookmarks")
          cookies := some (pjoin profileDir "Cookies")
          logins := some (pjoin profileDir "Login Data")
          firefoxPlaces := none } })

def firefoxProfileOfDir (ffRoot dirName name : String) : ImportProfile :=
  let absPath := pjoin ffRoot dirName
  { id := "firefox:" ++ dirName
    browser := .firefox
    name := name
    paths :=
      { root := ffRoot
        profileDir := some dirName
        localState := none
        history := none
        bookmarks := none
        cookies := some (pjoin absPath "cookies.sqlite")
        logins := some (pjoin absPath "logins.json")
        firefoxPlaces := some (pjoin absPath "places.sqlite") } }

/-- The `profiles.ini` loop of `detectProfiles`: resolve each
`Profile\d+` section's directory and display name. -/
def firefoxFromIni (ffRoot : String)
    (ini : List (String × List (String × String))) : List ImportProfile :=
  (ini.filter (fun p => isIniProfileSection p.1)).foldl
    (fun acc p =>
      let data := p.2
      match iniGet data "Path" with
      | none => acc
      | some rawPath =>
        if rawPath = "" then acc  -- `if (!rawPath) continue`
        else
          let isRel := iniGet data "IsRelative" = some "1"
          let absPath := if isRel then pjoin ffRoot rawPath else rawPath
          let dirName := basename absPath
          let name :=
            match iniGet data "Name" with
            | some nm =>
              if nm = "" then "Firefox — " ++ dirName
              else
                "Firefox — " ++ nm ++
                  (if iniGet data "Default" = some "1" then " (Default)" else "")
            | none => "Firefox — " ++ dirName
          acc ++ [{ firefoxProfileOfDir ffRoot dirName name with
                      paths := { (firefoxProfileOfDir ffRoot dirName name).paths with
                                   cookies := some (pjoin absPath "cookies.sqlite")
                                   logins := some (pjoin absPath "logins.json")
                                   firefoxPlaces := some (pjoin absPath "places.sqlite") } }])
    []

/-- Embedding of `detectProfiles()`: empty off Linux, otherwise Chrome,
Brave and Firefox profiles in that order. -/
def detectProfiles (fs : FsModel) : List ImportProfile :=
  if fs.platform ≠ "linux" then []
  else
    let home := fs.home
    let chromeRoot := pjoin (pjoin home ".config") "google-chrome"
    let res1 :=
      if fs.chromeRootExists then
        chromeLikeProfiles "chrome" .chrome "Chrome" chromeRoot fs.chromeDirs
      else []
    let braveRoot :=
      pjoin (pjoin (pjoin home ".config") "BraveSoftware") "Brave-Browser"
    let res2 :=
      if fs.braveRootExists then
        chromeLikeProfiles "brave" .brave "Brave" braveRoot fs.braveDirs
      else []
    let ffRoot := pjoin (pjoin home ".mozilla") "firefox"
    let res3 :=
      if fs.ffRootExists then
        let fromIni :=
          if fs.ffIniExists then
            match fs.ffIniContent with
            | some txt => firefoxFromIni ffRoot (parseIni txt)
            | none => []  -- the read threw; swallowed by `catch {}`
          else []
        if fromIni.length = 0 then
          (fs.ffDirs.filter (fun d => containsSub ".default" d)).map
            (fun p => firefoxProfileOfDir ffRoot p ("Firefox — " ++ p))
        else fromIni
      else []
    res1 ++ res2 ++ res3

/-! ### The run orchestrator -/

/-- What one category's source file yields inside `run`: `missing` models
`safeExists(...)` false (the guard skips the category silently),
`unreadable` models the import helper throwing (copy/open/query failure;
caught by the per-category `catch`), `ok` carries the parsed rows. -/
inductive CatSrc (α : Type) where
  | missing
  | unreadable (msg : String)
  | ok (d : α)
deriving DecidableEq, Repr

/-- The per-profile source data `run` can reach, one entry per category
read.  The two Firefox categories read `places.sqlite` independently. -/
structure ProfileData where
  browser : Browser
  history : CatSrc (List ChromeUrlRow)
  bookmarks : CatSrc BmRoots
  cookies : CatSrc (List ChromeCookieRow)
  logins : CatSrc (List ChromeLoginRow)
  placesHistory : CatSrc (List FfPlaceRow)
  placesBookmarks : CatSrc (List FfBmRow)

/-- `ImportRunOptions`: absent booleans take the source defaults
(`history ?? true`, `bookmarks ?? true`, `cookies ?? false`,
`passwords ?? false`). -/
structure RunOpts where
  history : Option Bool
  bookmarks : Option Bool
  cookies : Option Bool
  passwords : Option Bool
  limit : Option Int
deriving DecidableEq, Repr

/-- `ImportRunResult.imported`. -/
structure Imported where
  history : Nat
  bookmarks : Nat
  cookies : Nat
  passwords : Nat
  sessions : Nat
deriving DecidableEq, Repr

/-- One `try { if (guard && exists) result.imported.x = import(...) }
catch (e) { errors.push(msg) }` block of `run`: returns the updated table,
the count assignment (if one happened) and the error entry (if one was
pushed). -/
def catRun {α β : Type} (guard : Bool) (src : CatSrc α) (go : α → β → β × Nat)
    (errMsg : String) (tbl : β) : β × Option Nat × Option String :=
  if guard then
    match src with
    | .missing => (tbl, none, none)
    | .unreadable m => (tbl, none, some (errMsg ++ m))
    | .ok d =>
      let r := go d tbl
      (r.1, some r.2, none)
  else (tbl, none, none)

/-- Embedding of the body of `run(profileId, opts)` after the profile has
been resolved: the six guarded category blocks, in source order, threading
the canonical store, the `imported` counters and the `errors` list.
`dec` abstracts `decryptChromeValue(·, loadChromeMasterKey(localState))`. -/
def runModel (now : Int) (dec : List Nat → Option (List Nat))
    (prof : ProfileData) (opts : RunOpts) (s : Store) :
    Store × Imported × List String :=
  let cl := isChromeLike prof.browser
  let ff := prof.browser = Browser.firefox
  let r1 := catRun ((opts.history.getD true) && cl) prof.history
    (fun rows h => importChromeLikeHistory now rows opts.limit h)
    "History import failed: " s.history
  let r2 := catRun ((opts.bookmarks.getD true) && cl) prof.bookmarks
    (fun roots b => importChromeLikeBookmarks now roots b)
    "Bookmarks import failed: " s.bookmarks
  let r3 := catRun ((opts.cookies.getD false) && cl) prof.cookies
    (fun rows c => importChromeLikeCookies now dec (browserTag prof.browser) rows c)
    "Cookies import failed: " s.cookies
  let r4 := catRun ((opts.passwords.getD false) && cl) prof.logins
    (fun rows lg => importChromeLikePasswords now dec rows lg)
    "Passwords import failed: " s.logins
  let r5 := catRun ((opts.history.getD true) && decide ff) prof.placesHistory
    (fun rows h => importFirefoxHistory now rows opts.limit h)
    "Firefox history import failed: " r1.1
  let r6 := catRun ((opts.bookmarks.getD true) && decide ff) prof.placesBookmarks
    (fun rows b => importFirefoxBookmarks now rows b)
    "Firefox bookmarks import failed: " r2.1
  let imported : Imported :=
    { history := (r5.2.1.orElse (fun _ => r1.2.1)).getD 0
      bookmarks := (r6.2.1.orElse (fun _ => r2.2.1)).getD 0
      cookies := r3.2.1.getD 0
      passwords := r4.2.1.getD 0
      sessions := 0 }
  let errors := [r1.2.2, r2.2.2, r3.2.2, r4.2.2, r5.2.2, r6.2.2].filterMap id
  (⟨r5.1, r6.1, r3.1, r4.1⟩, imported, errors)

/-- A detected profile together with the source data its files hold. -/
structure ProfileEntry where
  id : String
  data : ProfileData

/-- `ImportRunResult`. -/
structure RunResult where
  profileId : String
  browser : Browser
  imported : Imported
  errors : List String

/-- Embedding of `run(profileId, opts)` including the only throwing path:
`detectProfiles().find(...)` failing yields `throw new Error('Profile not
found')`; everything else returns normally. -/
def runTop (now : Int) (dec : List Nat → Option (List Nat))
    (profiles : List ProfileEntry) (profileId : String) (opts : RunOpts)
    (s : Store) : Except String (Store × RunResult) :=
  match profiles.find? (fun p => decide (p.id = profileId)) with
  | none => .error "Profile not found"
  | some p =>
    let r := runModel now dec p.data opts s
    .ok (r.1, ⟨p.id, p.data.browser, r.2.1, r.2.2⟩)

/-! ### Temporary snapshot copies (`copyToTmp` and its consumers)

The lifecycle of one foreign-database read is modelled as a small state
machine over the set of temporary files currently on disk.  `ReadAttempt`
says how far the read gets: the `copyFileSync` throws, the
`new Database(tmp)` constructor throws, the count/row query throws, or
everything succeeds. -/

inductive ReadAttempt where
  | copyFail (msg : String)
  | openFail (msg : String)
  | queryFail (msg : String)
  | ok (n : Nat)
deriving DecidableEq, Repr

/-- Temporary files currently existing in `os.tmpdir()`. -/
structure TmpFs where
  live : List String
deriving DecidableEq, Repr

/-- One preview count block (`preview`, e.g. the History branch):
`try { const tmp = copyToTmp(p); const db = new Database(tmp); …get…;
db.close(); fs.rmSync(tmp) } catch (e) { notes.push(…) }`.  The `rmSync`
is the last statement of the `try`; there is no `finally`, so any failure
after the copy leaves the temporary file behind and only records a note. -/
def previewCountBlock (tmpName : String) (att : ReadAttempt) (fs : TmpFs) :
    TmpFs × Option Nat × Option String :=
  match att with
  | .copyFail m => (fs, none, some m)
  | .openFail m => ({ live := fs.live ++ [tmpName] }, none, some m)
  | .queryFail m => ({ live := fs.live ++ [tmpName] }, none, some m)
  | .ok n => ({ live := (fs.live ++ [tmpName]).erase tmpName }, some n, none)

/-- One import-helper read (`importChromeLikeHistory` etc.):
`const tmp = copyToTmp(p); const src = new Database(tmp); try { … } finally
{ src.close(); fs.rmSync(tmp) }`.  The `finally` removes the copy on both
the success and the query-failure path; only a throwing `Database`
constructor (which runs before the `try`) would skip it. -/
def importReadBlock (tmpName : String) (att : ReadAttempt) (fs : TmpFs) :
    TmpFs × Option Nat :=
  match att with
  | .copyFail _ => (fs, none)
  | .openFail _ => ({ live := fs.live ++ [tmpName] }, none)
  | .queryFail _ => ({ live := (fs.live ++ [tmpName]).erase tmpName }, none)
  | .ok n => ({ live := (fs.live ++ [tmpName]).erase tmpName }, some n)

/-! ### Derived notions used by the verification statements -/

/-- Running maximum of incoming visit counts, seeded with `c`. -/
def maxCnt1 (c : Int) (f : List HRowIn) : Int :=
  f.foldl (fun m a => max m a.cnt) c

/-- Agreement of two history tables up to row order: same row count and the
same row behind every URL. -/
def histAgree (x y : List HistoryRow) : Prop :=
  x.length = y.length ∧ ∀ u, lookupK histKey x u = lookupK histKey y u

def bmAgree (x y : List BookmarkRow) : Prop :=
  x.length = y.length ∧ ∀ u, lookupK bmKey x u = lookupK bmKey y u

def ckAgree (x y : List CookieRow) : Prop :=
  x.length = y.length ∧ ∀ k, lookupK ckKey x k = lookupK ckKey y k

/-- Login tables additionally agree on the (unkeyed) `NULL`-username rows. -/
def lgAgree (x y : List LoginRow) : Prop :=
  x.length = y.length ∧ (∀ k, lookupK lgKey x k = lookupK lgKey y k) ∧
    x.filter (fun r => r.username.isNone) = y.filter (fun r => r.username.isNone)

/-- Two canonical stores hold the same row contents and counts in every
table written by the import engine. -/
def storesAgree (s t : Store) : Prop :=
  histAgree s.history t.history ∧ bmAgree s.bookmarks t.bookmarks ∧
    ckAgree s.cookies t.cookies ∧ lgAgree s.logins t.logins

/-- The login rows `run` would read for this profile (empty when the
category is missing or unreadable). -/
def profLoginRows (prof : ProfileData) : List ChromeLoginRow :=
  match prof.logins with
  | .ok rows => rows
  | _ => []

/-- A concrete stand-in for the base64 decoder, used to witness the
master-key theorem: it returns a `DPAPI`-prefixed key. -/
def demoDecode : String → List Nat := fun _ => dpapiBytes ++ [1, 2, 3]

/-- A concrete stand-in for the AES-256-GCM oracle, used to witness the
decryption theorem: it accepts exactly one (key, nonce, tag) triple. -/
def toyGcm (key iv ct tag : List Nat) : Option (List Nat) :=
  if key = List.replicate 32 1 && iv = List.replicate 12 2 &&
      tag = List.replicate 16 3 then some ct else none

/-! ### Helper lemmas: JavaScript slices -/

theorem jsIdx_ofNat (len n : Nat) : jsIdx len (n : Int) = min n len := by
  unfold jsIdx
  rw [if_neg (by omega)]
  omega

theorem take_min_length {α : Type} (l : List α) (n : Nat) :
    l.take (min n l.length) = l.take n := by
  rcases Nat.le_total n l.length with h | h
  · rw [Nat.min_eq_left h]
  · rw [Nat.min_eq_right h, List.take_length, List.take_of_length_le h]


theorem jsSlice2_nat {α : Type} (l : List α) (a b : Nat) :
    jsSlice2 l (a : Int) (b : Int) = (l.take b).drop a := by
  unfold jsSlice2
  rw [jsIdx_ofNat, jsIdx_ofNat, take_min_length]
  rcases Nat.le_total a l.length with h | h
  · rw [Nat.min_eq_left h]
  · have hlen : (l.take b).length ≤ l.length := by
      rw [List.length_take]; omega
    rw [Nat.min_eq_right h, List.drop_eq_nil_of_le hlen,
        List.drop_eq_nil_of_le (le_trans hlen h)]

theorem jsSlice1_nat {α : Type} (l : List α) (a : Nat) :
    jsSlice1 l (a : Int) = l.drop a := by
  unfold jsSlice1
  rw [jsSlice2_nat, List.take_length]

/-! ### Helper lemmas: per-key folds of the four write paths -/

theorem keyFoldF_cons_some {R A K : Type} (mkNew : A → K → R) (upd : A → R → R)
    (k : K) (r : R) (a : A) (f : List A) :
    keyFoldF mkNew upd k (some r) (a :: f) =
      keyFoldF mkNew upd k (some (upd a r)) f := rfl

theorem keyFoldF_cons_none {R A K : Type} (mkNew : A → K → R) (upd : A → R → R)
    (k : K) (a : A) (f : List A) :
    keyFoldF mkNew upd k none (a :: f) =
      keyFoldF mkNew upd k (some (mkNew a k)) f := rfl

theorem keyFoldF_append {R A K : Type} (mkNew : A → K → R) (upd : A → R → R)
    (k : K) (x : Option R) (f : List A) (a : A) :
    keyFoldF mkNew upd k x (f ++ [a]) =
      some (match keyFoldF mkNew upd k x f with
            | none => mkNew a k
            | some r => upd a r) := by
  unfold keyFoldF
  rw [List.foldl_append]
  rfl

theorem maxCnt1_append (c : Int) (f : List HRowIn) (a : HRowIn) :
    maxCnt1 c (f ++ [a]) = max (maxCnt1 c f) a.cnt := by
  unfold maxCnt1
  rw [List.foldl_append]
  rfl

theorem le_maxCnt1 (c : Int) (f : List HRowIn) : c ≤ maxCnt1 c f := by
  induction f using List.reverseRecOn with
  | nil => exact le_refl c
  | append_singleton f a ih =>
    rw [maxCnt1_append]
    exact le_trans ih (le_max_left _ _)

theorem maxCnt1_le (c b : Int) (f : List HRowIn) (hc : c ≤ b)
    (hf : ∀ a ∈ f, a.cnt ≤ b) : maxCnt1 c f ≤ b := by
  induction f using List.reverseRecOn with
  | nil => exact hc
  | append_singleton f a ih =>
    rw [maxCnt1_append]
    exact max_le (ih (fun a ha => hf a (by simp [ha]))) (hf a (by simp))

theorem mem_le_maxCnt1 (c : Int) (f : List HRowIn) (a : HRowIn) (ha : a ∈ f) :
    a.cnt ≤ maxCnt1 c f := by
  induction f using List.reverseRecOn with
  | nil => cases ha
  | append_singleton f b ih =>
    rw [maxCnt1_append]
    rcases List.mem_append.1 ha with h | h
    · exact le_trans (ih h) (le_max_left _ _)
    · rw [List.mem_singleton.1 h]; exact le_max_right _ _

theorem maxCnt1_fix (c : Int) (f : List HRowIn)
    (hf : ∀ a ∈ f, a.cnt ≤ c) : maxCnt1 c f = c :=
  le_antisymm (maxCnt1_le c c f (le_refl c) hf) (le_maxCnt1 c f)

/-- Closed form of the per-key history fold started from an existing row:
title and timestamp come from the last incoming occurrence, the count is
the running maximum. -/
theorem histKeyFold_some (k : String) (f : List HRowIn) (e : HistoryRow) :
    keyFoldF histNew histUpd k (some e) f =
      some ⟨e.url,
            (match f.getLast? with
             | some aL => aL.title
             | none => e.title),
            (match f.getLast? with
             | some aL => aL.ts
             | none => e.visitAt),
            maxCnt1 e.visitCount f⟩ := by
  induction f using List.reverseRecOn with
  | nil => simp [keyFoldF, maxCnt1]
  | append_singleton f a ih =>
    rw [keyFoldF_append, ih, maxCnt1_append, List.getLast?_concat]
    rfl

theorem histKeyIdem_aux (k : String) (a : HRowIn) (f : List HRowIn)
    (e1 : HistoryRow) (htit : e1.title = a.title) (hts : e1.visitAt = a.ts)
    (hcnt : a.cnt ≤ e1.visitCount) :
    keyFoldF histNew histUpd k (keyFoldF histNew histUpd k (some e1) f)
        (a :: f) =
      keyFoldF histNew histUpd k (some e1) f := by
  have hC : a.cnt ≤ maxCnt1 e1.visitCount f := le_trans hcnt (le_maxCnt1 _ f)
  have hfixC : maxCnt1 (max (maxCnt1 e1.visitCount f) a.cnt) f =
      maxCnt1 e1.visitCount f := by
    rw [max_eq_left hC]
    exact maxCnt1_fix _ f (fun b hb => mem_le_maxCnt1 e1.visitCount f b hb)
  rw [histKeyFold_some k f e1, keyFoldF_cons_some, histKeyFold_some]
  simp only [histUpd]
  cases hL : f.getLast? with
  | none =>
    rcases List.getLast?_eq_none_iff.1 hL with rfl
    simp [maxCnt1, HistoryRow.mk.injEq, htit, hts, max_eq_left hcnt]
  | some aL =>
    simp [HistoryRow.mk.injEq, hfixC]

/-- Idempotence of the per-key history merge: replaying the same incoming
occurrences leaves the stored row unchanged. -/
theorem histKeyIdem (k : String) (f : List HRowIn) (x : Option HistoryRow)
    (hf : ∀ a ∈ f, histRowKey a = some k) :
    keyFoldF histNew histUpd k (keyFoldF histNew histUpd k x f) f =
      keyFoldF histNew histUpd k x f := by
  clear hf
  cases f with
  | nil => rfl
  | cons a f =>
    cases x with
    | none =>
      rw [keyFoldF_cons_none]
      exact histKeyIdem_aux k a f (histNew a k) rfl rfl (le_refl _)
    | some r =>
      rw [keyFoldF_cons_some]
      exact histKeyIdem_aux k a f (histUpd a r) rfl rfl (le_max_right _ _)

theorem bmKeyFold_some (now : Int) (k : String) (f : List BmItem)
    (e : BookmarkRow) :
    keyFoldF (bmNew now) bmUpd k (some e) f = some e := by
  induction f with
  | nil => rfl
  | cons a f ih => rw [keyFoldF_cons_some]; exact ih

/-- Idempotence of the per-key bookmark step (existing URLs are skipped). -/
theorem bmKeyIdem (now : Int) (k : String) (f : List BmItem)
    (x : Option BookmarkRow) (hf : ∀ a ∈ f, bmRowKey a = some k) :
    keyFoldF (bmNew now) bmUpd k (keyFoldF (bmNew now) bmUpd k x f) f =
      keyFoldF (bmNew now) bmUpd k x f := by
  clear hf
  cases f with
  | nil => rfl
  | cons a f =>
    cases x with
    | none =>
      rw [keyFoldF_cons_none, bmKeyFold_some, keyFoldF_cons_some]
      exact bmKeyFold_some now k f _
    | some r =>
      rw [keyFoldF_cons_some, bmKeyFold_some, keyFoldF_cons_some]
      exact bmKeyFold_some now k f _

theorem replaceKeyFold_concat {R K : Type} (mkNew : R → K → R) (upd : R → R → R)
    (hmk : ∀ a k, mkNew a k = a) (hupd : ∀ a r, upd a r = a)
    (k : K) (x : Option R) (f : List R) (a : R) :
    keyFoldF mkNew upd k x (f ++ [a]) = some a := by
  rw [keyFoldF_append]
  cases keyFoldF mkNew upd k x f with
  | none => simp [hmk]
  | some r => simp [hupd]

/-- Idempotence of the per-key replace-on-conflict step (cookies, keyed
logins): the last incoming occurrence wins either way. -/
theorem replaceKeyIdem {R K : Type} (mkNew : R → K → R) (upd : R → R → R)
    (hmk : ∀ a k, mkNew a k = a) (hupd : ∀ a r, upd a r = a)
    (k : K) (f : List R) (x : Option R) :
    keyFoldF mkNew upd k (keyFoldF mkNew upd k x f) f =
      keyFoldF mkNew upd k x f := by
  induction f using List.reverseRecOn with
  | nil => rfl
  | append_singleton f a _ =>
    rw [replaceKeyFold_concat mkNew upd hmk hupd,
        replaceKeyFold_concat mkNew upd hmk hupd]

/-! ### Helper lemmas: the bookmark insert loop and the login loop -/

theorem bmAddStep_fst (now : Int) (b : List BookmarkRow) (n : Nat)
    (it : BmItem) :
    (bmAddStep now (b, n) it).1 =
      applyRow bmKey bmRowKey (bmNew now) bmUpd b it := by
  unfold bmAddStep applyRow bmRowKey
  cases hx : lookupK bmKey b it.url with
  | some r => simp [hx, bmUpd, List.map_id']
  | none => simp [hx]

theorem bmFold_fst (now : Int) (items : List BmItem) (b : List BookmarkRow)
    (n : Nat) :
    (items.foldl (bmAddStep now) (b, n)).1 =
      tblFold bmKey bmRowKey (bmNew now) bmUpd b items := by
  induction items generalizing b n with
  | nil => rfl
  | cons it items ih =>
    simp only [List.foldl_cons, tblFold]
    have heta : bmAddStep now (b, n) it =
        ((bmAddStep now (b, n) it).1, (bmAddStep now (b, n) it).2) := rfl
    rw [heta, ih, bmAddStep_fst]
    rfl

theorem bmFold_count (now : Int) (items : List BmItem) (b : List BookmarkRow)
    (n : Nat) :
    (items.foldl (bmAddStep now) (b, n)).1.length + n =
      b.length + (items.foldl (bmAddStep now) (b, n)).2 := by
  induction items generalizing b n with
  | nil => rfl
  | cons it items ih =>
    simp only [List.foldl_cons]
    unfold bmAddStep
    cases hx : lookupK bmKey b it.url with
    | some r => exact ih b n
    | none =>
      have h2 := ih (b ++ [bmNew now it it.url]) (n + 1)
      simp only [List.length_append, List.length_cons, List.length_nil] at h2
      show (List.foldl (bmAddStep now) (b ++ [bmNew now it it.url], n + 1)
              items).1.length + n =
          b.length +
            (List.foldl (bmAddStep now) (b ++ [bmNew now it it.url], n + 1)
              items).2
      omega

theorem bmFold_count_mono (now : Int) (items : List BmItem)
    (b : List BookmarkRow) (n : Nat) :
    n ≤ (items.foldl (bmAddStep now) (b, n)).2 := by
  induction items generalizing b n with
  | nil => exact le_refl n
  | cons it items ih =>
    simp only [List.foldl_cons]
    unfold bmAddStep
    cases hx : lookupK bmKey b it.url with
    | some r => exact ih b n
    | none => exact le_trans (Nat.le_succ n) (ih _ (n + 1))

theorem bmFold_pos (now : Int) (it : BmItem) (its : List BmItem) :
    0 < ((it :: its).foldl (bmAddStep now) (([] : List BookmarkRow), 0)).2 := by
  simp only [List.foldl_cons]
  unfold bmAddStep
  simp only [lookupK, List.find?_nil]
  exact lt_of_lt_of_le (by omega) (bmFold_count_mono now its _ 1)

theorem loginFold_eq_tblFold (rows : List LoginRow) (lg : List LoginRow)
    (h : ∀ r ∈ rows, r.username.isSome) :
    rows.foldl loginStep lg = tblFold lgKey lgRowKey lgNew lgUpd lg rows := by
  induction rows generalizing lg with
  | nil => rfl
  | cons r rows ih =>
    simp only [List.foldl_cons, tblFold] at *
    have hr : loginStep lg r = applyRow lgKey lgRowKey lgNew lgUpd lg r := by
      unfold loginStep
      cases hu : r.username with
      | some u => rfl
      | none =>
        have := h r (by simp)
        rw [hu] at this
        simp at this
    rw [hr]
    exact ih _ (fun r' hr' => h r' (by simp [hr']))

theorem filter_none_map_login (lg : List LoginRow) (r : LoginRow) (u : String)
    (hu : r.username = some u) :
    (lg.map (fun x => if lgKey x = (r.origin, r.username) then lgUpd r x
        else x)).filter (fun x => x.username.isNone) =
      lg.filter (fun x => x.username.isNone) := by
  induction lg with
  | nil => rfl
  | cons x lg ih =>
    simp only [List.map_cons, List.filter_cons]
    by_cases heq : lgKey x = (r.origin, r.username)
    · have hxu : x.username = some u := by
        unfold lgKey at heq
        have := congrArg Prod.snd heq
        simp only at this
        rw [this, hu]
      rw [if_pos heq]
      have h1 : (lgUpd r x).username.isNone = false := by
        show r.username.isNone = false
        rw [hu]; rfl
      have h2 : x.username.isNone = false := by rw [hxu]; rfl
      rw [h1, h2, ih]
      simp
    · rw [if_neg heq]
      cases hx : x.username.isNone with
      | true => rw [ih]
      | false => rw [ih]

theorem applyRow_some_key {R A K : Type} [DecidableEq K] (keyFn : R → K)
    (rowKey : A → Option K) (mkNew : A → K → R) (upd : A → R → R)
    (l : List R) (a : A) (k : K) (hk : rowKey a = some k) :
    applyRow keyFn rowKey mkNew upd l a =
      if (lookupK keyFn l k).isSome then
        l.map (fun r => if keyFn r = k then upd a r else r)
      else l ++ [mkNew a k] := by
  unfold applyRow
  rw [hk]

theorem filter_none_loginStep (lg : List LoginRow) (r : LoginRow)
    (hr : r.username.isSome) :
    (loginStep lg r).filter (fun x => x.username.isNone) =
      lg.filter (fun x => x.username.isNone) := by
  rcases Option.isSome_iff_exists.1 hr with ⟨u, hu⟩
  unfold loginStep
  rw [hu]
  show (applyRow lgKey lgRowKey lgNew lgUpd lg r).filter
      (fun x => x.username.isNone) = _
  have hrk : lgRowKey r = some (r.origin, r.username) := by
    unfold lgRowKey; rw [hu]
  rw [applyRow_some_key lgKey lgRowKey lgNew lgUpd lg r (r.origin, r.username) hrk]
  by_cases hp : (lookupK lgKey lg (r.origin, r.username)).isSome
  · rw [if_pos hp]
    exact filter_none_map_login lg r u hu
  · rw [if_neg hp]
    rw [List.filter_append]
    have hne : (lgNew r (r.origin, r.username)).username.isNone = false := by
      show r.username.isNone = false
      rw [hu]; rfl
    simp [hne]

theorem loginFold_filter_none (rows : List LoginRow) (lg : List LoginRow)
    (h : ∀ r ∈ rows, r.username.isSome) :
    (rows.foldl loginStep lg).filter (fun x => x.username.isNone) =
      lg.filter (fun x => x.username.isNone) := by
  induction rows generalizing lg with
  | nil => rfl
  | cons r rows ih =>
    rw [List.foldl_cons, ih _ (fun r' hr' => h r' (by simp [hr']))]
    exact filter_none_loginStep lg r (h r (by simp))

/-! ### Helper lemmas: double-import agreement per category -/

theorem histAgree_refl (x : List HistoryRow) : histAgree x x := ⟨rfl, fun _ => rfl⟩

theorem bmAgree_refl (x : List BookmarkRow) : bmAgree x x := ⟨rfl, fun _ => rfl⟩

theorem ckAgree_refl (x : List CookieRow) : ckAgree x x := ⟨rfl, fun _ => rfl⟩

theorem lgAgree_refl (x : List LoginRow) : lgAgree x x := ⟨rfl, fun _ => rfl, rfl⟩

theorem histFold_idem (h : List HistoryRow) (B : List HRowIn) :
    histAgree (histFold (histFold h B) B) (histFold h B) := by
  unfold histAgree histFold
  constructor
  · exact @tblFold_idem_length HistoryRow HRowIn String _ histKey histRowKey
      histNew histUpd (fun a k _ => rfl) (fun a r k _ _ => rfl) h B
  · intro u
    exact @tblFold_idem_lookup HistoryRow HRowIn String _ histKey histRowKey
      histNew histUpd (fun a k _ => rfl) (fun a r k _ _ => rfl)
      (fun k f x hf => histKeyIdem k f x hf) h B u

theorem importChromeLikeHistory_idem (now : Int) (rows : List ChromeUrlRow)
    (limit : Option Int) (h : List HistoryRow) :
    histAgree (importChromeLikeHistory now rows limit
        (importChromeLikeHistory now rows limit h).1).1
      (importChromeLikeHistory now rows limit h).1 := by
  show histAgree (histFold (histFold h _) _) (histFold h _)
  exact histFold_idem h _

theorem importFirefoxHistory_idem (now : Int) (rows : List FfPlaceRow)
    (limit : Option Int) (h : List HistoryRow) :
    histAgree (importFirefoxHistory now rows limit
        (importFirefoxHistory now rows limit h).1).1
      (importFirefoxHistory now rows limit h).1 := by
  show histAgree (histFold (histFold h _) _) (histFold h _)
  exact histFold_idem h _

theorem bmTbl_idem (now : Int) (b : List BookmarkRow) (items : List BmItem) :
    bmAgree (tblFold bmKey bmRowKey (bmNew now) bmUpd
        (tblFold bmKey bmRowKey (bmNew now) bmUpd b items) items)
      (tblFold bmKey bmRowKey (bmNew now) bmUpd b items) := by
  unfold bmAgree
  constructor
  · exact @tblFold_idem_length BookmarkRow BmItem String _ bmKey bmRowKey
      (bmNew now) bmUpd (fun a k _ => rfl) (fun a r k _ _ => rfl) b items
  · intro u
    exact @tblFold_idem_lookup BookmarkRow BmItem String _ bmKey bmRowKey
      (bmNew now) bmUpd (fun a k _ => rfl) (fun a r k _ _ => rfl)
      (fun k f x hf => bmKeyIdem now k f x hf) b items u

theorem importChromeLikeBookmarks_idem (now : Int) (roots : BmRoots)
    (b : List BookmarkRow) :
    bmAgree (importChromeLikeBookmarks now roots
        (importChromeLikeBookmarks now roots b).1).1
      (importChromeLikeBookmarks now roots b).1 := by
  show bmAgree ((walkRoots roots).foldl (bmAddStep now)
      (((walkRoots roots).foldl (bmAddStep now) (b, 0)).1, 0)).1
    ((walkRoots roots).foldl (bmAddStep now) (b, 0)).1
  rw [bmFold_fst, bmFold_fst]
  exact bmTbl_idem now b (walkRoots roots)

theorem importFirefoxBookmarks_idem (now : Int) (rows : List FfBmRow)
    (b : List BookmarkRow) :
    bmAgree (importFirefoxBookmarks now rows
        (importFirefoxBookmarks now rows b).1).1
      (importFirefoxBookmarks now rows b).1 := by
  show bmAgree ((rows.map (fun r => (⟨jsStrOr r.title r.url, r.url⟩ : BmItem))).foldl
      (bmAddStep now)
      (((rows.map (fun r => (⟨jsStrOr r.title r.url, r.url⟩ : BmItem))).foldl
          (bmAddStep now) (b, 0)).1, 0)).1
    ((rows.map (fun r => (⟨jsStrOr r.title r.url, r.url⟩ : BmItem))).foldl
      (bmAddStep now) (b, 0)).1
  rw [bmFold_fst, bmFold_fst]
  exact bmTbl_idem now b _

theorem importChromeLikeCookies_idem (now : Int)
    (dec : List Nat → Option (List Nat)) (source : String)
    (rows : List ChromeCookieRow) (c : List CookieRow) :
    ckAgree (importChromeLikeCookies now dec source rows
        (importChromeLikeCookies now dec source rows c).1).1
      (importChromeLikeCookies now dec source rows c).1 := by
  show ckAgree (tblFold ckKey ckRowKey ckNew ckUpd
      (tblFold ckKey ckRowKey ckNew ckUpd c _) _)
    (tblFold ckKey ckRowKey ckNew ckUpd c _)
  unfold ckAgree
  constructor
  · exact @tblFold_idem_length CookieRow CookieRow (String × String × String) _
      ckKey ckRowKey ckNew ckUpd (fun a k hk => Option.some.inj hk)
      (fun a r k hk hr => (Option.some.inj hk).trans hr.symm) c _
  · intro k
    exact @tblFold_idem_lookup CookieRow CookieRow (String × String × String) _
      ckKey ckRowKey ckNew ckUpd (fun a k hk => Option.some.inj hk)
      (fun a r k hk hr => (Option.some.inj hk).trans hr.symm)
      (fun k f x _ => replaceKeyIdem ckNew ckUpd (fun _ _ => rfl)
        (fun _ _ => rfl) k f x) c _ k

theorem lgRowKey_some (a : LoginRow) (k : String × Option String)
    (hk : lgRowKey a = some k) : (a.origin, a.username) = k := by
  unfold lgRowKey at hk
  cases hu : a.username with
  | none => rw [hu] at hk; exact absurd hk (by simp)
  | some u => rw [hu] at hk; exact Option.some.inj hk

theorem importChromeLikePasswords_idem (now : Int)
    (dec : List Nat → Option (List Nat)) (rows : List ChromeLoginRow)
    (lg : List LoginRow) (h : ∀ r ∈ rows, r.username_value ≠ none) :
    lgAgree (importChromeLikePasswords now dec rows
        (importChromeLikePasswords now dec rows lg).1).1
      (importChromeLikePasswords now dec rows lg).1 := by
  have hm : ∀ r' ∈ rows.map (loginRowOf now dec), r'.username.isSome := by
    intro r' hr'
    rcases List.mem_map.1 hr' with ⟨r, hr, rfl⟩
    have hne := h r hr
    show r.username_value.isSome
    cases hu : r.username_value with
    | none => exact absurd hu hne
    | some u => rfl
  show lgAgree ((rows.map (loginRowOf now dec)).foldl loginStep
      ((rows.map (loginRowOf now dec)).foldl loginStep lg))
    ((rows.map (loginRowOf now dec)).foldl loginStep lg)
  refine ⟨?_, ?_, ?_⟩
  · rw [loginFold_eq_tblFold _ _ hm, loginFold_eq_tblFold _ _ hm]
    exact @tblFold_idem_length LoginRow LoginRow (String × Option String) _
      lgKey lgRowKey lgNew lgUpd
      (fun a k hk => (lgRowKey_some a k hk))
      (fun a r k hk hr => (lgRowKey_some a k hk).trans hr.symm) lg _
  · intro k
    rw [loginFold_eq_tblFold _ _ hm, loginFold_eq_tblFold _ _ hm]
    exact @tblFold_idem_lookup LoginRow LoginRow (String × Option String) _
      lgKey lgRowKey lgNew lgUpd
      (fun a k hk => (lgRowKey_some a k hk))
      (fun a r k hk hr => (lgRowKey_some a k hk).trans hr.symm)
      (fun k f x _ => replaceKeyIdem lgNew lgUpd (fun _ _ => rfl)
        (fun _ _ => rfl) k f x) lg _ k
  · exact loginFold_filter_none _ _ hm

theorem catRun_false {α β : Type} (src : CatSrc α) (go : α → β → β × Nat)
    (m : String) (tbl : β) : catRun false src go m tbl = (tbl, none, none) := rfl

theorem catRun_fst_idem {α β : Type} (g : Bool) (src : CatSrc α)
    (go : α → β → β × Nat) (m : String) (agree : β → β → Prop)
    (hrefl : ∀ x, agree x x)
    (hgo : ∀ d, src = CatSrc.ok d → ∀ x, agree ((go d (go d x).1).1) ((go d x).1))
    (x : β) :
    agree ((catRun g src go m (catRun g src go m x).1).1)
      ((catRun g src go m x).1) := by
  cases g with
  | false => exact hrefl x
  | true =>
    cases src with
    | missing => exact hrefl x
    | unreadable msg => exact hrefl x
    | ok d => exact hgo d rfl x

/-- C1 (amended): re-running `run` with identical options on an unchanged
source profile leaves the canonical store with the same row contents and
counts as one run — no duplicate bookmark, cookie, or login row, and no
history visit count beyond the maximum of existing and incoming — provided
no imported login row carries a SQL `NULL` username (a `NULL` username can
never conflict under `UNIQUE(origin, username)`, so such a row is
re-inserted by every run; see the counterexample). -/
theorem C1_rerun_idempotent (now : Int) (dec : List Nat → Option (List Nat))
    (prof : ProfileData) (opts : RunOpts) (s : Store)
    (hnn : ∀ r ∈ profLoginRows prof, r.username_value ≠ none) :
    storesAgree (runModel now dec prof opts (runModel now dec prof opts s).1).1
      (runModel now dec prof opts s).1 := by
  obtain ⟨br, hsrc, bsrc, csrc, lsrc, phsrc, pbsrc⟩ := prof
  cases br with
  | chrome =>
    simp only [runModel, isChromeLike]
    simp only [show (decide (Browser.chrome = Browser.firefox)) = false from rfl,
      Bool.and_true, Bool.and_false, catRun_false]
    unfold storesAgree
    refine ⟨?_, ?_, ?_, ?_⟩
    · exact catRun_fst_idem _ _ _ _ histAgree histAgree_refl
        (fun d _ x => importChromeLikeHistory_idem now d opts.limit x) _
    · exact catRun_fst_idem _ _ _ _ bmAgree bmAgree_refl
        (fun d _ x => importChromeLikeBookmarks_idem now d x) _
    · exact catRun_fst_idem _ _ _ _ ckAgree ckAgree_refl
        (fun d _ x => importChromeLikeCookies_idem now dec "chrome" d x) _
    · exact catRun_fst_idem _ _ _ _ lgAgree lgAgree_refl
        (fun d hd x => importChromeLikePasswords_idem now dec d x
          (fun r hr => hnn r (by
            show r ∈ profLoginRows
              ⟨Browser.chrome, hsrc, bsrc, csrc, lsrc, phsrc, pbsrc⟩
            unfold profLoginRows
            rw [hd]
            exact hr))) _
  | brave =>
    simp only [runModel, isChromeLike]
    simp only [show (decide (Browser.brave = Browser.firefox)) = false from rfl,
      Bool.and_true, Bool.and_false, catRun_false]
    unfold storesAgree
    refine ⟨?_, ?_, ?_, ?_⟩
    · exact catRun_fst_idem _ _ _ _ histAgree histAgree_refl
        (fun d _ x => importChromeLikeHistory_idem now d opts.limit x) _
    · exact catRun_fst_idem _ _ _ _ bmAgree bmAgree_refl
        (fun d _ x => importChromeLikeBookmarks_idem now d x) _
    · exact catRun_fst_idem _ _ _ _ ckAgree ckAgree_refl
        (fun d _ x => importChromeLikeCookies_idem now dec "brave" d x) _
    · exact catRun_fst_idem _ _ _ _ lgAgree lgAgree_refl
        (fun d hd x => importChromeLikePasswords_idem now dec d x
          (fun r hr => hnn r (by
            show r ∈ profLoginRows
              ⟨Browser.brave, hsrc, bsrc, csrc, lsrc, phsrc, pbsrc⟩
            unfold profLoginRows
            rw [hd]
            exact hr))) _
  | firefox =>
    simp only [runModel, isChromeLike]
    simp only [show (decide (Browser.firefox = Browser.firefox)) = true from rfl,
      Bool.and_true, Bool.and_false, catRun_false]
    unfold storesAgree
    refine ⟨?_, ?_, ?_, ?_⟩
    · exact catRun_fst_idem _ _ _ _ histAgree histAgree_refl
        (fun d _ x => importFirefoxHistory_idem now d opts.limit x) _
    · exact catRun_fst_idem _ _ _ _ bmAgree bmAgree_refl
        (fun d _ x => importFirefoxBookmarks_idem now d x) _
    · exact ckAgree_refl _
    · exact lgAgree_refl _

theorem C1_witness :
    (∀ r ∈ profLoginRows
        ⟨Browser.chrome,
         CatSrc.ok [⟨some "https://a/", some "A", 11644473601000000, 2⟩],
         CatSrc.missing, CatSrc.missing,
         CatSrc.ok [⟨"https://o/", some "user", [], none, none, none, 1, 1, 0, 0⟩],
         CatSrc.missing, CatSrc.missing⟩, r.username_value ≠ none) ∧
    storesAgree
      (runModel 1700000000000 (fun _ => none)
        ⟨Browser.chrome,
         CatSrc.ok [⟨some "https://a/", some "A", 11644473601000000, 2⟩],
         CatSrc.missing, CatSrc.missing,
         CatSrc.ok [⟨"https://o/", some "user", [], none, none, none, 1, 1, 0, 0⟩],
         CatSrc.missing, CatSrc.missing⟩
        ⟨none, none, none, some true, none⟩
        (runModel 1700000000000 (fun _ => none)
          ⟨Browser.chrome,
           CatSrc.ok [⟨some "https://a/", some "A", 11644473601000000, 2⟩],
           CatSrc.missing, CatSrc.missing,
           CatSrc.ok [⟨"https://o/", some "user", [], none, none, none, 1, 1, 0, 0⟩],
           CatSrc.missing, CatSrc.missing⟩
          ⟨none, none, none, some true, none⟩ Store.empty).1).1
      (runModel 1700000000000 (fun _ => none)
        ⟨Browser.chrome,
         CatSrc.ok [⟨some "https://a/", some "A", 11644473601000000, 2⟩],
         CatSrc.missing, CatSrc.missing,
         CatSrc.ok [⟨"https://o/", some "user", [], none, none, none, 1, 1, 0, 0⟩],
         CatSrc.missing, CatSrc.missing⟩
        ⟨none, none, none, some true, none⟩ Store.empty).1 :=
  ⟨by decide,
   C1_rerun_idempotent 1700000000000 (fun _ => none)
     ⟨Browser.chrome,
      CatSrc.ok [⟨some "https://a/", some "A", 11644473601000000, 2⟩],
      CatSrc.missing, CatSrc.missing,
      CatSrc.ok [⟨"https://o/", some "user", [], none, none, none, 1, 1, 0, 0⟩],
      CatSrc.missing, CatSrc.missing⟩
     ⟨none, none, none, some true, none⟩ Store.empty (by decide)⟩

/-- C1 counterexample: a source login row whose `username_value` is SQL
`NULL` can never conflict under `UNIQUE(origin, username)` (SQLite treats
`NULL` as distinct in unique indexes), so a second identical run inserts
the row again — the store does not keep the same login row count. -/
theorem C1_counterexample :
    ((runModel 1700000000000 (fun _ => none)
        ⟨Browser.chrome, CatSrc.missing, CatSrc.missing, CatSrc.missing,
         CatSrc.ok [⟨"https://o/", none, [], none, none, none, 0, 1, 0, 0⟩],
         CatSrc.missing, CatSrc.missing⟩
        ⟨some false, some false, some false, some true, none⟩
        Store.empty).1).logins.length = 1 ∧
    ((runModel 1700000000000 (fun _ => none)
        ⟨Browser.chrome, CatSrc.missing, CatSrc.missing, CatSrc.missing,
         CatSrc.ok [⟨"https://o/", none, [], none, none, none, 0, 1, 0, 0⟩],
         CatSrc.missing, CatSrc.missing⟩
        ⟨some false, some false, some false, some true, none⟩
        (runModel 1700000000000 (fun _ => none)
          ⟨Browser.chrome, CatSrc.missing, CatSrc.missing, CatSrc.missing,
           CatSrc.ok [⟨"https://o/", none, [], none, none, none, 0, 1, 0, 0⟩],
           CatSrc.missing, CatSrc.missing⟩
          ⟨some false, some false, some false, some true, none⟩
          Store.empty).1).1).logins.length = 2 := by
  constructor
  · decide
  · decide

/-- C2 (amended): for an imported history row whose URL already exists, the
merge keeps the greater of the existing and incoming visit counts, but it
OVERWRITES `visitAt` (and the title) with the incoming row's normalized
values even when the existing timestamp is newer; for a URL not yet
present, the row is inserted with `max 1 visit_count`, not the raw source
visit count. -/
theorem C2_history_merge (now : Int) (r : ChromeUrlRow) (u : String)
    (h : List HistoryRow) (hu : r.url = some u) :
    (∀ e, lookupK histKey h u = some e →
      lookupK histKey (importChromeLikeHistory now [r] none h).1 u =
        some ⟨e.url, jsStrOr r.title (r.url.getD ""),
              toUnixMsFromChromeUs now r.last_visit_time,
              max e.visitCount (max 1 r.visit_count)⟩) ∧
    (lookupK histKey h u = none →
      lookupK histKey (importChromeLikeHistory now [r] none h).1 u =
        some ⟨u, jsStrOr r.title (r.url.getD ""),
              toUnixMsFromChromeUs now r.last_visit_time,
              max 1 r.visit_count⟩) := by
  have hshow : (importChromeLikeHistory now [r] none h).1 =
      applyRow histKey histRowKey histNew histUpd h (chromeNorm now r) := rfl
  have hrk : histRowKey (chromeNorm now r) = some u := hu
  rw [hshow,
    applyRow_some_key histKey histRowKey histNew histUpd h (chromeNorm now r) u hrk]
  constructor
  · intro e he
    rw [if_pos (by rw [he]; rfl)]
    rw [lookupK_map (fun x => if histKey x = u then histUpd (chromeNorm now r) x
          else x)
        (by
          intro x
          show histKey (if histKey x = u then histUpd (chromeNorm now r) x
            else x) = histKey x
          by_cases hx : histKey x = u
          · rw [if_pos hx]; rfl
          · rw [if_neg hx])]
    rw [he]
    have hke : histKey e = u := lookupK_key h u he
    show some (if histKey e = u then histUpd (chromeNorm now r) e else e) = _
    rw [if_pos hke]
    rfl
  · intro hnone
    rw [if_neg (by rw [hnone]; simp)]
    rw [lookupK_append_single, hnone]
    show (if histKey (histNew (chromeNorm now r) u) = u
          then some (histNew (chromeNorm now r) u) else none) = _
    have hcond : histKey (histNew (chromeNorm now r) u) = u := rfl
    rw [if_pos hcond]
    rfl

theorem C2_witness :
    ((⟨some "https://a/", some "T", 11644473601000000, 7⟩ : ChromeUrlRow).url =
        some "https://a/") ∧
    lookupK histKey (importChromeLikeHistory 1700000000000
        [⟨some "https://a/", some "T", 11644473601000000, 7⟩] none
        [⟨"https://a/", "old", 99, 3⟩]).1 "https://a/" =
      some ⟨"https://a/", jsStrOr (some "T") ((some "https://a/").getD ""),
            toUnixMsFromChromeUs 1700000000000 11644473601000000,
            max 3 (max 1 7)⟩ :=
  ⟨rfl,
   (C2_history_merge 1700000000000
      ⟨some "https://a/", some "T", 11644473601000000, 7⟩ "https://a/"
      [⟨"https://a/", "old", 99, 3⟩] rfl).1
     ⟨"https://a/", "old", 99, 3⟩ (by decide)⟩

/-- C2 counterexample: the existing entry has the newer timestamp (2000),
the incoming row normalizes to 1000, yet the merge stores 1000 — the claim
"keeps the newer of the existing and incoming visit timestamps" fails; and
a fresh URL with source visit count 0 is inserted with count 1, not 0. -/
theorem C2_counterexample :
    (lookupK histKey (importChromeLikeHistory 1700000000000
        [⟨some "https://a/", some "new", 11644473601000000, 3⟩] none
        [⟨"https://a/", "old", 2000, 5⟩]).1 "https://a/" =
      some ⟨"https://a/", "new", 1000, 5⟩) ∧
    ¬ (1000 : Int) = max 2000 1000 ∧
    (lookupK histKey (importChromeLikeHistory 1700000000000
        [⟨some "https://b/", some "t", 11644473601000000, 0⟩] none []).1
        "https://b/" =
      some ⟨"https://b/", "t", 1000, 1⟩) ∧
    ¬ (1 : Int) = 0 := by decide

/-- C3 (amended): only the bookmark import returns the number of rows
actually written (the store growth); the history import returns the
limit-capped number of source rows processed (even when a row's write
fails), and the cookie and password imports return the number of source
rows read. -/
theorem C3_reported_counts (now : Int) (dec : List Nat → Option (List Nat))
    (source : String) (roots : BmRoots) (b : List BookmarkRow)
    (rows : List ChromeUrlRow) (limit : Option Int) (h : List HistoryRow)
    (crows : List ChromeCookieRow) (c : List CookieRow)
    (lrows : List ChromeLoginRow) (lg : List LoginRow) :
    (importChromeLikeBookmarks now roots b).1.length =
        b.length + (importChromeLikeBookmarks now roots b).2 ∧
    (importChromeLikeHistory now rows limit h).2 =
        importLimit limit rows.length ∧
    (importChromeLikeCookies now dec source crows c).2 = crows.length ∧
    (importChromeLikePasswords now dec lrows lg).2 = lrows.length := by
  refine ⟨?_, ?_, rfl, rfl⟩
  · have hc := bmFold_count now (walkRoots roots) b 0
    simpa using hc
  · show importLimit limit (List.insertionSort chromeVisitDesc rows).length = _
    rw [List.length_insertionSort]

/-- C3 counterexample: a history source row whose `url` column is SQL
`NULL` fails its insert (caught and ignored), writes nothing, yet is still
counted — the reported history count is 1 while 0 rows were written. -/
theorem C3_counterexample :
    (importChromeLikeHistory 1700000000000
        [⟨none, some "t", 5, 1⟩] none []).2 = 1 ∧
    (importChromeLikeHistory 1700000000000
        [⟨none, some "t", 5, 1⟩] none []).1 = [] := by decide

/-- C5 (amended): for positive input the normalizer returns
`floor(us/1000) - 11644473600000` when that is positive, and the current
time otherwise; zero or negative input also yields the current time.  In
particular an input exactly equal to the 1601→1970 offset is clamped to
the current time (not mapped to 0), and no input ever yields a
non-positive (pre-1970) value when `now` is positive. -/
theorem C5_chrome_timestamp (now us : Int) (hnow : 0 < now) :
    toUnixMsFromChromeUs now us =
      (if 0 < us ∧ 0 < Int.fdiv us 1000 - chromeEpochOffsetMs
       then Int.fdiv us 1000 - chromeEpochOffsetMs else now) ∧
    0 < toUnixMsFromChromeUs now us := by
  unfold toUnixMsFromChromeUs chromeEpochOffsetMs
  by_cases h1 : us ≤ 0
  · rw [if_pos h1, if_neg (by omega)]
    exact ⟨rfl, hnow⟩
  · rw [if_neg h1]
    dsimp only
    by_cases h2 : 0 < Int.fdiv us 1000 - 11644473600000
    · rw [if_pos h2, if_pos ⟨by omega, h2⟩]
      exact ⟨rfl, h2⟩
    · rw [if_neg h2, if_neg (by intro hc; exact h2 hc.2)]
      exact ⟨rfl, hnow⟩

theorem C5_witness :
    (0 : Int) < 1700000000000 ∧
      (toUnixMsFromChromeUs 1700000000000 11644473601000000 =
        (if 0 < (11644473601000000 : Int) ∧
            0 < Int.fdiv (11644473601000000 : Int) 1000 - chromeEpochOffsetMs
         then Int.fdiv (11644473601000000 : Int) 1000 - chromeEpochOffsetMs
         else 1700000000000) ∧
       0 < toUnixMsFromChromeUs 1700000000000 11644473601000000) :=
  ⟨by decide, C5_chrome_timestamp 1700000000000 11644473601000000 (by decide)⟩

/-- C5 counterexample: the input exactly equal to the 1601→1970 offset (in
microseconds) maps to `0`, which the clamp replaces with `Date.now()` —
the normalizer returns the current time, not `0` (±rounding). -/
theorem C5_counterexample :
    toUnixMsFromChromeUs 1700000000000 11644473600000000 = 1700000000000 ∧
    ¬ (1700000000000 : Int) = 0 := by decide

/-- C8 (code bug): `preview` has no `finally` around its snapshot reads: a
query failure after `copyToTmp` leaves the temporary copy on disk and only
records a note, while the run-path import helpers delete the copy on both
the success and the failure path. -/
theorem C8_preview_leaks_tmp_copy :
    (previewCountBlock "comet-import-1.sqlite"
        (ReadAttempt.queryFail "file is not a database") ⟨[]⟩).1.live =
      ["comet-import-1.sqlite"] ∧
    (previewCountBlock "comet-import-1.sqlite"
        (ReadAttempt.queryFail "file is not a database") ⟨[]⟩).2.2 =
      some "file is not a database" ∧
    (importReadBlock "comet-import-1.sqlite"
        (ReadAttempt.queryFail "file is not a database") ⟨[]⟩).1.live = [] ∧
    (importReadBlock "comet-import-1.sqlite" (ReadAttempt.ok 3) ⟨[]⟩).1.live =
      [] := by decide

/-- C10: on every platform other than Linux, `detectProfiles` returns the
empty list regardless of filesystem contents. -/
theorem C10_non_linux (fs : FsModel) (h : fs.platform ≠ "linux") :
    detectProfiles fs = [] := by
  unfold detectProfiles
  rw [if_pos h]

theorem C10_witness :
    (("darwin" : String) ≠ "linux") ∧
    detectProfiles ⟨"darwin", "/home/u", true, ["Profile 1"], true,
      ["Profile 2"], true, true,
      some "[Profile0]\nPath=abc.default\nIsRelative=1\n",
      ["abc.default"]⟩ = [] :=
  ⟨by decide, C10_non_linux _ (by decide)⟩

/-- C7 (amended): a positive `limit` caps only the history imports, which
process exactly the `limit` newest rows (importing with `limit = n` equals
the unlimited import of the `n` newest rows, and the reported count is at
most `n`); the cookie and password imports ignore the limit and process
every source row. -/
theorem C7_limit_caps_history_only (now : Int)
    (dec : List Nat → Option (List Nat)) (source : String)
    (rows : List ChromeUrlRow) (frows : List FfPlaceRow) (n : Int)
    (hn : 0 < n) (h : List HistoryRow)
    (crows : List ChromeCookieRow) (c : List CookieRow)
    (lrows : List ChromeLoginRow) (lg : List LoginRow) :
    importChromeLikeHistory now rows (some n) h =
      importChromeLikeHistory now
        ((List.insertionSort chromeVisitDesc rows).take n.toNat) none h ∧
    (importChromeLikeHistory now rows (some n) h).2 ≤ n.toNat ∧
    importFirefoxHistory now frows (some n) h =
      importFirefoxHistory now
        ((List.insertionSort ffVisitDesc frows).take n.toNat) none h ∧
    (importFirefoxHistory now frows (some n) h).2 ≤ n.toNat ∧
    (importChromeLikeCookies now dec source crows c).2 = crows.length ∧
    (importChromeLikePasswords now dec lrows lg).2 = lrows.length := by
  refine ⟨?_, ?_, ?_, ?_, rfl, rfl⟩
  · have hsorted : List.Sorted chromeVisitDesc
        ((List.insertionSort chromeVisitDesc rows).take n.toNat) :=
      List.Pairwise.sublist (List.take_sublist _ _)
        (List.sorted_insertionSort chromeVisitDesc rows)
    unfold importChromeLikeHistory importLimit
    rw [List.Sorted.insertionSort_eq hsorted]
    dsimp only
    rw [if_pos hn, take_min_length, List.take_length, List.length_take]
  · show (if 0 < n
        then min n.toNat (List.insertionSort chromeVisitDesc rows).length
        else (List.insertionSort chromeVisitDesc rows).length) ≤ n.toNat
    rw [if_pos hn]
    exact Nat.min_le_left _ _
  · have hsorted : List.Sorted ffVisitDesc
        ((List.insertionSort ffVisitDesc frows).take n.toNat) :=
      List.Pairwise.sublist (List.take_sublist _ _)
        (List.sorted_insertionSort ffVisitDesc frows)
    unfold importFirefoxHistory importLimit
    rw [List.Sorted.insertionSort_eq hsorted]
    dsimp only
    rw [if_pos hn, take_min_length, List.take_length, List.length_take]
  · show (if 0 < n
        then min n.toNat (List.insertionSort ffVisitDesc frows).length
        else (List.insertionSort ffVisitDesc frows).length) ≤ n.toNat
    rw [if_pos hn]
    exact Nat.min_le_left _ _

theorem C7_witness :
    (0 : Int) < 1 ∧
      (importChromeLikeHistory 5 [] (some 1) [] =
        importChromeLikeHistory 5
          ((List.insertionSort chromeVisitDesc []).take (1 : Int).toNat) none [] ∧
      (importChromeLikeHistory 5 [] (some 1) []).2 ≤ (1 : Int).toNat ∧
      importFirefoxHistory 5 [] (some 1) [] =
        importFirefoxHistory 5
          ((List.insertionSort ffVisitDesc []).take (1 : Int).toNat) none [] ∧
      (importFirefoxHistory 5 [] (some 1) []).2 ≤ (1 : Int).toNat ∧
      (importChromeLikeCookies 5 (fun _ => none) "chrome" [] []).2 =
        ([] : List ChromeCookieRow).length ∧
      (importChromeLikePasswords 5 (fun _ => none) [] []).2 =
        ([] : List ChromeLoginRow).length) :=
  ⟨by decide,
   C7_limit_caps_history_only 5 (fun _ => none) "chrome" [] [] 1 (by decide)
     [] [] [] [] []⟩

/-- C7 counterexample: with `limit = 1` and a cookies file holding two
rows, `run` processes (and writes) both rows and reports 2 — the limit does
not cap the cookie category. -/
theorem C7_counterexample :
    ((runModel 1700000000000 (fun _ => none)
        ⟨Browser.chrome, CatSrc.missing, CatSrc.missing,
         CatSrc.ok [⟨"h1", "n", "/", [], "", 1, 0, 1, 0, 0, none⟩,
                    ⟨"h2", "n", "/", [], "", 1, 0, 1, 0, 0, none⟩],
         CatSrc.missing, CatSrc.missing, CatSrc.missing⟩
        ⟨some false, some false, some true, some false, some 1⟩
        Store.empty).2.1).cookies = 2 ∧
    ((runModel 1700000000000 (fun _ => none)
        ⟨Browser.chrome, CatSrc.missing, CatSrc.missing,
         CatSrc.ok [⟨"h1", "n", "/", [], "", 1, 0, 1, 0, 0, none⟩,
                    ⟨"h2", "n", "/", [], "", 1, 0, 1, 0, 0, none⟩],
         CatSrc.missing, CatSrc.missing, CatSrc.missing⟩
        ⟨some false, some false, some true, some false, some 1⟩
        Store.empty).1).cookies.length = 2 ∧
    ¬ (2 : Nat) ≤ 1 := by decide

/-- C4: `run` raises to the caller only when no detected profile carries
the requested id; a category whose read fails is caught, appended to
`errors` as one entry, and does not stop the categories before or after
it.  In the claim's scenario — a chrome-like profile with readable,
nonempty history and bookmarks but an unreadable cookies file, run with
`{history, bookmarks, cookies: true}` — the result reports nonzero
`imported.history` and `imported.bookmarks` and exactly one cookies entry
in `errors`. -/
theorem C4_error_isolation (now : Int) (dec : List Nat → Option (List Nat))
    (profiles : List ProfileEntry) (pid : String) (opts : RunOpts) (s : Store) :
    ((∀ p ∈ profiles, p.id ≠ pid) →
      runTop now dec profiles pid opts s = Except.error "Profile not found") ∧
    ((∃ p ∈ profiles, p.id = pid) →
      ∃ out, runTop now dec profiles pid opts s = Except.ok out) ∧
    (∀ (hsrc : List ChromeUrlRow) (roots : BmRoots) (msg : String)
        (lsrc : CatSrc (List ChromeLoginRow)),
      hsrc ≠ [] → walkRoots roots ≠ [] →
      0 < ((runModel now dec
          ⟨Browser.chrome, CatSrc.ok hsrc, CatSrc.ok roots,
           CatSrc.unreadable msg, lsrc, CatSrc.missing, CatSrc.missing⟩
          ⟨some true, some true, some true, none, none⟩
          ⟨s.history, [], s.cookies, s.logins⟩).2.1).history ∧
      0 < ((runModel now dec
          ⟨Browser.chrome, CatSrc.ok hsrc, CatSrc.ok roots,
           CatSrc.unreadable msg, lsrc, CatSrc.missing, CatSrc.missing⟩
          ⟨some true, some true, some true, none, none⟩
          ⟨s.history, [], s.cookies, s.logins⟩).2.1).bookmarks ∧
      (runModel now dec
          ⟨Browser.chrome, CatSrc.ok hsrc, CatSrc.ok roots,
           CatSrc.unreadable msg, lsrc, CatSrc.missing, CatSrc.missing⟩
          ⟨some true, some true, some true, none, none⟩
          ⟨s.history, [], s.cookies, s.logins⟩).2.2 =
        ["Cookies import failed: " ++ msg]) := by
  refine ⟨?_, ?_, ?_⟩
  · intro hall
    unfold runTop
    rw [List.find?_eq_none.2 (fun p hp => by simp [hall p hp])]
  · rintro ⟨p, hp, hpid⟩
    unfold runTop
    have hsome : (profiles.find? (fun p => decide (p.id = pid))).isSome :=
      List.find?_isSome.2 ⟨p, hp, by simp [hpid]⟩
    rcases Option.isSome_iff_exists.1 hsome with ⟨q, hq⟩
    rw [hq]
    exact ⟨_, rfl⟩
  · intro hsrc roots msg lsrc hne hwr
    simp only [runModel, isChromeLike]
    simp only [show (decide (Browser.chrome = Browser.firefox)) = false from rfl,
      Bool.and_true, Bool.and_false, catRun_false, Option.getD]
    refine ⟨?_, ?_, ?_⟩
    · show 0 < (importChromeLikeHistory now hsrc none s.history).2
      rw [show (importChromeLikeHistory now hsrc none s.history).2 =
            (List.insertionSort chromeVisitDesc hsrc).length from rfl,
          List.length_insertionSort]
      exact List.length_pos.2 hne
    · show 0 < (importChromeLikeBookmarks now roots []).2
      show 0 < ((walkRoots roots).foldl (bmAddStep now) ([], 0)).2
      rcases hwr2 : walkRoots roots with _ | ⟨it, its⟩
      · exact absurd hwr2 hwr
      · exact bmFold_pos now it its
    · simp [catRun, List.filterMap]

theorem C4_witness :
    runTop 7 (fun _ => none)
        [⟨"chrome:Default", ⟨Browser.chrome, CatSrc.missing, CatSrc.missing,
           CatSrc.missing, CatSrc.missing, CatSrc.missing, CatSrc.missing⟩⟩]
        "nope" ⟨none, none, none, none, none⟩ Store.empty =
      Except.error "Profile not found" ∧
    (∃ out, runTop 7 (fun _ => none)
        [⟨"chrome:Default", ⟨Browser.chrome, CatSrc.missing, CatSrc.missing,
           CatSrc.missing, CatSrc.missing, CatSrc.missing, CatSrc.missing⟩⟩]
        "chrome:Default" ⟨none, none, none, none, none⟩ Store.empty =
      Except.ok out) ∧
    (0 < ((runModel 7 (fun _ => none)
        ⟨Browser.chrome, CatSrc.ok [⟨some "https://a/", none, 5, 1⟩],
         CatSrc.ok ⟨some (BmNode.mk true none (some "https://b/") []), none,
           none⟩,
         CatSrc.unreadable "boom", CatSrc.missing, CatSrc.missing,
         CatSrc.missing⟩
        ⟨some true, some true, some true, none, none⟩
        ⟨Store.empty.history, [], Store.empty.cookies,
          Store.empty.logins⟩).2.1).history ∧
     0 < ((runModel 7 (fun _ => none)
        ⟨Browser.chrome, CatSrc.ok [⟨some "https://a/", none, 5, 1⟩],
         CatSrc.ok ⟨some (BmNode.mk true none (some "https://b/") []), none,
           none⟩,
         CatSrc.unreadable "boom", CatSrc.missing, CatSrc.missing,
         CatSrc.missing⟩
        ⟨some true, some true, some true, none, none⟩
        ⟨Store.empty.history, [], Store.empty.cookies,
          Store.empty.logins⟩).2.1).bookmarks ∧
     (runModel 7 (fun _ => none)
        ⟨Browser.chrome, CatSrc.ok [⟨some "https://a/", none, 5, 1⟩],
         CatSrc.ok ⟨some (BmNode.mk true none (some "https://b/") []), none,
           none⟩,
         CatSrc.unreadable "boom", CatSrc.missing, CatSrc.missing,
         CatSrc.missing⟩
        ⟨some true, some true, some true, none, none⟩
        ⟨Store.empty.history, [], Store.empty.cookies,
          Store.empty.logins⟩).2.2 =
       ["Cookies import failed: " ++ "boom"]) :=
  ⟨(C4_error_isolation 7 (fun _ => none)
      [⟨"chrome:Default", ⟨Browser.chrome, CatSrc.missing, CatSrc.missing,
         CatSrc.missing, CatSrc.missing, CatSrc.missing, CatSrc.missing⟩⟩]
      "nope" ⟨none, none, none, none, none⟩ Store.empty).1
     (by intro p hp; rw [List.mem_singleton.1 hp]; decide),
   (C4_error_isolation 7 (fun _ => none)
      [⟨"chrome:Default", ⟨Browser.chrome, CatSrc.missing, CatSrc.missing,
         CatSrc.missing, CatSrc.missing, CatSrc.missing, CatSrc.missing⟩⟩]
      "chrome:Default" ⟨none, none, none, none, none⟩ Store.empty).2.1
     ⟨⟨"chrome:Default", ⟨Browser.chrome, CatSrc.missing, CatSrc.missing,
         CatSrc.missing, CatSrc.missing, CatSrc.missing, CatSrc.missing⟩⟩,
       List.mem_singleton.2 rfl, rfl⟩,
   (C4_error_isolation 7 (fun _ => none)
      [⟨"chrome:Default", ⟨Browser.chrome, CatSrc.missing, CatSrc.missing,
         CatSrc.missing, CatSrc.missing, CatSrc.missing, CatSrc.missing⟩⟩]
      "chrome:Default" ⟨none, none, none, none, none⟩ Store.empty).2.2
     [⟨some "https://a/", none, 5, 1⟩]
     ⟨some (BmNode.mk true none (some "https://b/") []), none, none⟩
     "boom" CatSrc.missing (by decide) (by decide)⟩

theorem jsIdx_zero (len : Nat) : jsIdx len 0 = 0 := by
  unfold jsIdx
  rw [if_neg (by omega)]
  omega

theorem jsSlice2_zero_three {α : Type} (l : List α) :
    jsSlice2 l 0 3 = l.take 3 := by
  unfold jsSlice2
  have h3 : jsIdx l.length 3 = min 3 l.length := by
    unfold jsIdx
    rw [if_neg (by omega)]
    omega
  rw [jsIdx_zero, h3, take_min_length, List.drop_zero]

theorem jsSlice2_zero_five {α : Type} (l : List α) :
    jsSlice2 l 0 5 = l.take 5 := by
  unfold jsSlice2
  have h5 : jsIdx l.length 5 = min 5 l.length := by
    unfold jsIdx
    rw [if_neg (by omega)]
    omega
  rw [jsIdx_zero, h5, take_min_length, List.drop_zero]

theorem jsSlice1_five {α : Type} (l : List α) : jsSlice1 l 5 = l.drop 5 := by
  unfold jsSlice1 jsSlice2
  have h5 : jsIdx l.length 5 = min 5 l.length := by
    unfold jsIdx
    rw [if_neg (by omega)]
    omega
  have hl : jsIdx l.length (l.length : Int) = l.length := by
    unfold jsIdx
    rw [if_neg (by omega)]
    omega
  rw [h5, hl, List.take_length]
  rcases Nat.le_total 5 l.length with h | h
  · rw [Nat.min_eq_left h]
  · rw [Nat.min_eq_right h, List.drop_length, List.drop_eq_nil_of_le h]

/-- C9: the master-key unwrap reads the manifest, base64-decodes the
`os_crypt.encrypted_key` field, strips the 5-byte `DPAPI` marker when
present, and returns `none` (rather than throwing) when the manifest is
unreadable/malformed or the field is missing or not a string. -/
theorem C9_master_key_unwrap (decode : String → List Nat) :
    (∀ s, s ≠ "" →
      loadChromeMasterKey decode (ManifestRead.parsed (KeyField.strVal s)) =
        some (if (decode s).take 5 = dpapiBytes then (decode s).drop 5
              else decode s)) ∧
    loadChromeMasterKey decode ManifestRead.readError = none ∧
    loadChromeMasterKey decode (ManifestRead.parsed KeyField.absent) = none ∧
    loadChromeMasterKey decode (ManifestRead.parsed KeyField.nonString) =
      none := by
  refine ⟨?_, rfl, rfl, rfl⟩
  intro s hs
  show (if s = "" then none
        else
          if jsSlice2 (decode s) 0 5 = dpapiBytes
          then some (jsSlice1 (decode s) 5) else some (decode s)) = _
  rw [if_neg hs, jsSlice2_zero_five, jsSlice1_five]
  by_cases hd : (decode s).take 5 = dpapiBytes
  · rw [if_pos hd, if_pos hd]
  · rw [if_neg hd, if_neg hd]

theorem C9_witness :
    ("QQ==" : String) ≠ "" ∧
    loadChromeMasterKey demoDecode (ManifestRead.parsed (KeyField.strVal "QQ==")) =
      some (if (demoDecode "QQ==").take 5 = dpapiBytes
            then (demoDecode "QQ==").drop 5 else demoDecode "QQ==") :=
  ⟨by decide, (C9_master_key_unwrap demoDecode).1 "QQ==" (by decide)⟩

/-- C6: value decryption returns a non-v10-tagged blob unchanged as
plaintext; for a v10 blob it parses tag ‖ 12-byte nonce ‖ ciphertext ‖
16-byte auth tag and feeds exactly those components to the AES-256-GCM
primitive, recovering the plaintext of a well-formed blob built with the
given key; and it yields `none` — rather than throwing — when the key is
missing/empty or the authenticated decryption fails (corrupted tag,
malformed blob). -/
theorem C6_decrypt_contract
    (gcm : List Nat → List Nat → List Nat → List Nat → Option (List Nat)) :
    (∀ (e : List Nat) (mk : Option (List Nat)), e ≠ [] →
      e.take 3 ≠ v10Bytes → decryptChromeValue gcm e mk = some e) ∧
    (∀ (iv ct tag key pt : List Nat), iv.length = 12 → tag.length = 16 →
      key ≠ [] → gcm key iv ct tag = some pt →
      decryptChromeValue gcm (v10Bytes ++ iv ++ ct ++ tag) (some key) =
        some pt) ∧
    (∀ e : List Nat, e.take 3 = v10Bytes →
      decryptChromeValue gcm e none = none) ∧
    (∀ (e key : List Nat), e.take 3 = v10Bytes → key ≠ [] →
      gcm key (jsSlice2 e 3 15) (jsSlice2 e 15 ((e.length : Int) - 16))
          (jsSlice1 e ((e.length : Int) - 16)) = none →
      decryptChromeValue gcm e (some key) = none) := by
  have hv10len : v10Bytes.length = 3 := rfl
  have htake3 : ∀ e : List Nat, e.take 3 = v10Bytes → e ≠ [] := by
    intro e he hc
    rw [hc] at he
    exact absurd he.symm (by decide)
  refine ⟨?_, ?_, ?_, ?_⟩
  · intro e mk he hv
    unfold decryptChromeValue
    rw [if_neg (fun hc => he (List.length_eq_zero.1 hc)), jsSlice2_zero_three,
      if_pos hv]
  · intro iv ct tag key pt hiv htag hkey hgcm
    have hlen : (v10Bytes ++ iv ++ ct ++ tag).length = 31 + ct.length := by
      simp [v10Bytes, hiv, htag]
      omega
    have hA : v10Bytes ++ iv ++ ct ++ tag =
        (v10Bytes ++ iv) ++ (ct ++ tag) := by
      simp [List.append_assoc]
    have hB : v10Bytes ++ iv ++ ct ++ tag =
        ((v10Bytes ++ iv) ++ ct) ++ tag := rfl
    have hlenA : (v10Bytes ++ iv).length = 15 := by simp [v10Bytes, hiv]
    have hlenB : ((v10Bytes ++ iv) ++ ct).length = 15 + ct.length := by
      simp [v10Bytes, hiv]
      omega
    have htk3 : (v10Bytes ++ iv ++ ct ++ tag).take 3 = v10Bytes := by
      rw [show v10Bytes ++ iv ++ ct ++ tag =
            v10Bytes ++ (iv ++ ct ++ tag) by simp [List.append_assoc]]
      exact List.take_left' hv10len
    unfold decryptChromeValue
    rw [if_neg (by rw [hlen]; omega), jsSlice2_zero_three,
      if_neg (not_not_intro htk3)]
    dsimp only
    rw [if_neg (fun hc => hkey (List.length_eq_zero.1 hc))]
    have hiv_slice : jsSlice2 (v10Bytes ++ iv ++ ct ++ tag) 3 15 = iv := by
      have h3 : (3 : Int) = ((3 : Nat) : Int) := by norm_cast
      have h15 : (15 : Int) = ((15 : Nat) : Int) := by norm_cast
      rw [h3, h15, jsSlice2_nat, hA, List.take_left' hlenA,
        List.drop_left' hv10len]
    have hct_slice : jsSlice2 (v10Bytes ++ iv ++ ct ++ tag) 15
        (((v10Bytes ++ iv ++ ct ++ tag).length : Int) - 16) = ct := by
      have hcast : (((v10Bytes ++ iv ++ ct ++ tag).length : Int) - 16) =
          ((15 + ct.length : Nat) : Int) := by
        rw [hlen]; omega
      have h15 : (15 : Int) = ((15 : Nat) : Int) := by norm_cast
      rw [hcast, h15, jsSlice2_nat, hB, List.take_left' hlenB,
        List.drop_left' hlenA]
    have htag_slice : jsSlice1 (v10Bytes ++ iv ++ ct ++ tag)
        (((v10Bytes ++ iv ++ ct ++ tag).length : Int) - 16) = tag := by
      have hcast : (((v10Bytes ++ iv ++ ct ++ tag).length : Int) - 16) =
          ((15 + ct.length : Nat) : Int) := by
        rw [hlen]; omega
      rw [hcast, jsSlice1_nat, hB, List.drop_left' hlenB]
    rw [hiv_slice, hct_slice, htag_slice]
    exact hgcm
  · intro e hv
    unfold decryptChromeValue
    rw [if_neg (fun hc => htake3 e hv (List.length_eq_zero.1 hc)),
      jsSlice2_zero_three, if_neg (not_not_intro hv)]
  · intro e key hv hkey hgcm
    unfold decryptChromeValue
    rw [if_neg (fun hc => htake3 e hv (List.length_eq_zero.1 hc)),
      jsSlice2_zero_three, if_neg (not_not_intro hv)]
    dsimp only
    rw [if_neg (fun hc => hkey (List.length_eq_zero.1 hc))]
    exact hgcm

theorem C6_witness :
    (List.replicate 12 2 : List Nat).length = 12 ∧
    (List.replicate 16 3 : List Nat).length = 16 ∧
    (List.replicate 32 1 : List Nat) ≠ [] ∧
    toyGcm (List.replicate 32 1) (List.replicate 12 2) [42]
      (List.replicate 16 3) = some [42] ∧
    decryptChromeValue toyGcm
      (v10Bytes ++ List.replicate 12 2 ++ [42] ++ List.replicate 16 3)
      (some (List.replicate 32 1)) = some [42] :=
  ⟨by decide, by decide, by decide, by decide,
   (C6_decrypt_contract toyGcm).2.1 (List.replicate 12 2) [42]
     (List.replicate 16 3) (List.replicate 32 1) [42] (by decide) (by decide)
     (by decide) (by decide)⟩
